import Mathlib

/-!
Verification of the hermes-api listing service (Rust) against its
natural-language specification.  The Rust sources are shallowly embedded:
pure functions become Lean functions, stateful code becomes explicit state
passing, fallible code returns `Except` or `Option`, and calls to external
collaborators (marketplace REST endpoints, the LLM gateway, Redis, random
UUID generation, wall-clock time) are supplied through explicit environment
records, one field per call site of a single run.  The `f32`/`f64`
arithmetic of the rate limiter and category selection is modelled over `ℚ`;
the quantities involved (token counts, hundredth-rounded confidences) are
exact in both representations at the granularity the specification talks
about.
-/

/- ===================== Shared error model (src/pipeline.rs 467-509) ===== -/

inductive PipelineErrorKind where
  | invalidInput
  | internal
deriving DecidableEq, Repr

structure PipelineError where
  stage : String
  message : String
  kind : PipelineErrorKind
deriving DecidableEq, Repr

def PipelineError.invalid_input (stage message : String) : PipelineError :=
  { stage := stage, message := message, kind := .invalidInput }

def PipelineError.internal (stage message : String) : PipelineError :=
  { stage := stage, message := message, kind := .internal }

/- ===================== C3: token bucket (src/security.rs 163-221) ======= -/

/-- Rate-limiter configuration; `from_env` guarantees `rate_per_sec > 0` and
`capacity ≥ 1` (defaults 5 and 10).  The Rust `f64` fields are modelled as
rationals. -/
structure TokenBucketsConfig where
  rate_per_sec : ℚ
  capacity : ℚ
deriving Repr

/-- One bucket of `TokenBuckets::buckets`; `last_refill` is replaced by the
elapsed time handed to each `consume` call. -/
structure BucketState where
  tokens : ℚ
deriving Repr, DecidableEq

/-- A bucket is created on first use with `tokens = capacity`
(`or_insert_with` in `TokenBuckets::consume`). -/
def initialBucket (cfg : TokenBucketsConfig) : BucketState :=
  { tokens := cfg.capacity }

/-- The refill step of `TokenBuckets::consume`: if time elapsed, add
`elapsed * rate`, capped at `capacity`. -/
def refillTokens (cfg : TokenBucketsConfig) (s : BucketState) (elapsed : ℚ) : ℚ :=
  if 0 < elapsed then min cfg.capacity (s.tokens + elapsed * cfg.rate_per_sec)
  else s.tokens

/-- `TokenBuckets::consume` on one bucket: refill, then admit (subtracting
one token) exactly when at least one token is available.  Returns the new
state and whether the request was admitted. -/
def TokenBuckets.consume (cfg : TokenBucketsConfig) (s : BucketState) (elapsed : ℚ) :
    BucketState × Bool :=
  let refilled := refillTokens cfg s elapsed
  if 1 ≤ refilled then ({ tokens := refilled - 1 }, true)
  else ({ tokens := refilled }, false)

/-- A whole sequence of `consume` calls on one bucket, at the given elapsed
times since the respective previous call. -/
def consumeSeq (cfg : TokenBucketsConfig) (s : BucketState) (elapses : List ℚ) : BucketState :=
  elapses.foldl (fun st e => (TokenBuckets.consume cfg st e).1) s

theorem consume_step_bounds (cfg : TokenBucketsConfig) (s : BucketState) (e : ℚ)
    (hrate : 0 < cfg.rate_per_sec) (hcap : 1 ≤ cfg.capacity)
    (he : 0 ≤ e) (h0 : 0 ≤ s.tokens) (h1 : s.tokens ≤ cfg.capacity) :
    0 ≤ (TokenBuckets.consume cfg s e).1.tokens ∧
      (TokenBuckets.consume cfg s e).1.tokens ≤ cfg.capacity := by
  have hcap0 : (0 : ℚ) ≤ cfg.capacity := le_trans zero_le_one hcap
  have hrefill0 : 0 ≤ refillTokens cfg s e := by
    unfold refillTokens
    split
    · exact le_min hcap0 (add_nonneg h0 (mul_nonneg he (le_of_lt hrate)))
    · exact h0
  have hrefill1 : refillTokens cfg s e ≤ cfg.capacity := by
    unfold refillTokens
    split
    · exact min_le_left _ _
    · exact h1
  by_cases hge : 1 ≤ refillTokens cfg s e
  · constructor
    · simp only [TokenBuckets.consume, if_pos hge]
      linarith
    · simp only [TokenBuckets.consume, if_pos hge]
      linarith
  · constructor
    · simp only [TokenBuckets.consume, if_neg hge]
      exact hrefill0
    · simp only [TokenBuckets.consume, if_neg hge]
      exact hrefill1

theorem consumeSeq_bounds (cfg : TokenBucketsConfig) (s : BucketState) (elapses : List ℚ)
    (hrate : 0 < cfg.rate_per_sec) (hcap : 1 ≤ cfg.capacity)
    (hel : ∀ e ∈ elapses, 0 ≤ e) (h0 : 0 ≤ s.tokens) (h1 : s.tokens ≤ cfg.capacity) :
    0 ≤ (consumeSeq cfg s elapses).tokens ∧ (consumeSeq cfg s elapses).tokens ≤ cfg.capacity := by
  induction elapses generalizing s with
  | nil => exact ⟨h0, h1⟩
  | cons e rest ih =>
      have he : 0 ≤ e := hel e (List.mem_cons_self e rest)
      have step := consume_step_bounds cfg s e hrate hcap he h0 h1
      have hrest : ∀ x ∈ rest, 0 ≤ x := fun x hx => hel x (List.mem_cons_of_mem e hx)
      simpa [consumeSeq] using
        ih (TokenBuckets.consume cfg s e).1 hrest step.1 step.2

/-- Claim C3: a token bucket starts at `capacity`; across any sequence of
`consume` operations at arbitrary nonnegative elapsed times the token count
stays inside the closed interval `[0, capacity]`; and a token is subtracted
exactly when the refilled count is at least 1 (the admitted flag witnesses
this).  Hypotheses mirror the `from_env` guarantees `rate_per_sec > 0`,
`capacity ≥ 1`, and the fact that `Instant` durations are nonnegative. -/
theorem claim_C3_token_bucket_bounds (cfg : TokenBucketsConfig) (elapses : List ℚ)
    (hrate : 0 < cfg.rate_per_sec) (hcap : 1 ≤ cfg.capacity)
    (hel : ∀ e ∈ elapses, 0 ≤ e) :
    (initialBucket cfg).tokens = cfg.capacity ∧
      (0 ≤ (consumeSeq cfg (initialBucket cfg) elapses).tokens ∧
        (consumeSeq cfg (initialBucket cfg) elapses).tokens ≤ cfg.capacity) ∧
      (∀ s e, (TokenBuckets.consume cfg s e).2 = true ↔ 1 ≤ refillTokens cfg s e) := by
  refine ⟨rfl, ?_, ?_⟩
  · exact consumeSeq_bounds cfg (initialBucket cfg) elapses hrate hcap hel
      (le_trans zero_le_one hcap) le_rfl
  · intro s e
    by_cases h : 1 ≤ refillTokens cfg s e
    · simp [TokenBuckets.consume, if_pos h, h]
    · simp [TokenBuckets.consume, if_neg h, h]

/-- Witness for C3 at the default configuration (rate 5, capacity 10) and a
concrete schedule of consume calls. -/
theorem claim_C3_witness :
    (0 : ℚ) < 5 ∧ (1 : ℚ) ≤ 10 ∧
      (0 ≤ (consumeSeq ⟨5, 10⟩ (initialBucket ⟨5, 10⟩) [0, 0, 1/10, 0]).tokens ∧
        (consumeSeq ⟨5, 10⟩ (initialBucket ⟨5, 10⟩) [0, 0, 1/10, 0]).tokens ≤ (10 : ℚ)) := by
  refine ⟨by norm_num, by norm_num, ?_⟩
  exact (claim_C3_token_bucket_bounds ⟨5, 10⟩ [0, 0, 1/10, 0] (by norm_num) (by norm_num)
    (by intro e he; fin_cases he <;> norm_num)).2.1

/- ===================== C5: category selection (src/pipeline.rs 898-948) = -/

/-- `CategoryDefinition` (src/pipeline.rs 415-422). -/
structure CategoryDefinition where
  id : String
  tree_id : String
  label : String
  narrative : String
  keywords : List String
deriving DecidableEq, Repr

/-- `CATEGORY_POOL` (src/pipeline.rs 424-460). -/
def CATEGORY_POOL : List CategoryDefinition := [
  { id := "11450", tree_id := "0", label := "Clothing, Shoes & Accessories",
    narrative := "image cues show lifestyle apparel and footwear",
    keywords := ["shoe", "sneaker", "apparel"] },
  { id := "31387", tree_id := "0", label := "Consumer Electronics",
    narrative := "close-up product shots with polished surfaces",
    keywords := ["headphones", "camera", "electronics"] },
  { id := "261178", tree_id := "0", label := "Collectibles",
    narrative := "studio backgrounds and creative props",
    keywords := ["collectible", "vintage", "retro"] },
  { id := "281", tree_id := "0", label := "Motors Parts & Accessories",
    narrative := "detail shots of textured materials and components",
    keywords := ["auto", "motors", "component"] },
  { id := "293", tree_id := "0", label := "Health & Beauty",
    narrative := "soft lighting and product laydowns",
    keywords := ["beauty", "wellness", "care"] }]

/-- `CategorySelection` (src/pipeline.rs 705-712); the `f32` confidence is
modelled as a rational. -/
structure CategorySelection where
  id : String
  tree_id : String
  label : String
  confidence : ℚ
  rationale : String
deriving DecidableEq, Repr

/-- Rust `f32::round`: round half away from zero. -/
def rustRound (q : ℚ) : ℚ :=
  if 0 ≤ q then ((⌊q + 1/2⌋ : ℤ) : ℚ) else -((⌊-q + 1/2⌋ : ℤ) : ℚ)

/-- Rust `clamp(lo, hi)`. -/
def clampQ (q lo hi : ℚ) : ℚ := min hi (max lo q)

/-- `stages::select_category` (src/pipeline.rs 898-948), reduced to the data
it returns: index the pool at `seed mod len`, compute the rounded and
clamped confidence, and format the rationale.  The JSON output document
(alternatives, image signature) and the async pause carry no selected data
and are not modelled. -/
def select_category (request_sku : String) (categories : List CategoryDefinition)
    (seed : Nat) : Except PipelineError CategorySelection :=
  match categories[seed % categories.length]? with
  | none => .error (PipelineError.internal "select_category" "no categories configured")
  | some category =>
      let confidence : ℚ := 55/100 + ((seed % 40 : Nat) : ℚ) / 100
      let rounded := clampQ (rustRound (min confidence (95/100) * 100) / 100) 0 (99/100)
      .ok { id := category.id
            tree_id := category.tree_id
            label := category.label
            confidence := rounded
            rationale := "sku signal `" ++ request_sku ++ "` + image hash matched `" ++
              category.narrative ++ "`" }

theorem confidence_formula (seed : Nat) :
    clampQ (rustRound (min (55/100 + ((seed % 40 : Nat) : ℚ) / 100) (95/100) * 100) / 100)
        0 (99/100) =
      55/100 + ((seed % 40 : Nat) : ℚ) / 100 := by
  have hk : (seed % 40) ≤ 39 := Nat.le_of_lt_succ (Nat.mod_lt seed (by norm_num))
  generalize hn : seed % 40 = n at hk ⊢
  have hkq : ((n : Nat) : ℚ) ≤ 39 := by exact_mod_cast hk
  have hkq0 : (0 : ℚ) ≤ ((n : Nat) : ℚ) := by positivity
  set k : ℚ := ((n : Nat) : ℚ) with hkdef
  have hmin : min (55/100 + k / 100) ((95 : ℚ)/100) = 55/100 + k / 100 := by
    apply min_eq_left
    linarith
  have hprod : (55/100 + k / 100) * 100 = 55 + k := by ring
  have hfloor : (⌊(55 + k) + 1/2⌋ : ℤ) = ((55 + n : Nat) : ℤ) := by
    rw [hkdef]
    apply Int.floor_eq_iff.mpr
    constructor
    · push_cast
      linarith
    · push_cast
      linarith
  have hround : rustRound ((55/100 + k / 100) * 100) = 55 + k := by
    rw [hprod]
    unfold rustRound
    rw [if_pos (by linarith)]
    rw [hfloor]
    rw [hkdef]
    push_cast
    ring
  rw [hmin, hround]
  have hdiv : (55 + k) / 100 = 55/100 + k / 100 := by ring
  rw [hdiv]
  unfold clampQ
  rw [max_eq_right (by positivity)]
  exact min_eq_right (by linarith)

/-- Claim C5: for a non-empty category pool, `select_category` succeeds,
picks the category at index `seed mod pool length`, and its confidence is
exactly `0.55 + (seed mod 40)/100` (the 0.95 cap, 2-decimal rounding and
`[0, 0.99]` clamp of the source are identities on these values);
consequently the selected category id is independent of the request, so two
requests with the same seed select the identical id. -/
theorem claim_C5_select_category (sku : String) (categories : List CategoryDefinition)
    (seed : Nat) (h : categories ≠ []) :
    ∃ sel category,
      categories[seed % categories.length]? = some category ∧
      select_category sku categories seed = .ok sel ∧
      sel.id = category.id ∧
      sel.confidence = 55/100 + ((seed % 40 : Nat) : ℚ) / 100 ∧
      ∀ sku2, ∃ sel2, select_category sku2 categories seed = .ok sel2 ∧ sel2.id = sel.id := by
  have hlen : 0 < categories.length := List.length_pos.mpr h
  have hidx : seed % categories.length < categories.length := Nat.mod_lt seed hlen
  obtain ⟨category, hcat⟩ : ∃ c, categories[seed % categories.length]? = some c := by
    cases hx : categories[seed % categories.length]? with
    | none =>
        rw [List.getElem?_eq_none_iff] at hx
        omega
    | some c => exact ⟨c, rfl⟩
  have hsel : ∀ s : String, select_category s categories seed = .ok
      { id := category.id
        tree_id := category.tree_id
        label := category.label
        confidence := 55/100 + ((seed % 40 : Nat) : ℚ) / 100
        rationale := "sku signal `" ++ s ++ "` + image hash matched `" ++
          category.narrative ++ "`" } := by
    intro s
    simp [select_category, hcat, confidence_formula seed]
  refine ⟨_, category, hcat, hsel sku, rfl, rfl, ?_⟩
  intro sku2
  exact ⟨_, hsel sku2, rfl⟩

/-- Witness for C5 at the shipped pool with seed 42 and the sample sku. -/
theorem claim_C5_witness :
    CATEGORY_POOL ≠ [] ∧
      ∃ sel category,
        CATEGORY_POOL[42 % CATEGORY_POOL.length]? = some category ∧
        select_category "test-sku-001" CATEGORY_POOL 42 = .ok sel ∧
        sel.id = category.id ∧
        sel.confidence = 55/100 + ((42 % 40 : Nat) : ℚ) / 100 ∧
        ∀ sku2, ∃ sel2, select_category sku2 CATEGORY_POOL 42 = .ok sel2 ∧ sel2.id = sel.id := by
  refine ⟨by decide, claim_C5_select_category "test-sku-001" CATEGORY_POOL 42 (by decide)⟩

/- ======= C8: truncation (src/hsuf/transform.rs 256-262, 37-60) ========== -/

/-- A Rust `String` is UTF-8; we model it as its list of characters, with
`Char.utf8Size` giving each character's encoded byte width. -/
abbrev RStr := List Char

/-- Rust `str::len`: the length in bytes. -/
def byteLen (s : RStr) : Nat := (s.map Char.utf8Size).sum

/-- Rust byte slicing `&s[..b]`: returns the prefix of `b` bytes, or `none`
(a panic) when `b` is not a character boundary or exceeds the length. -/
def takeBytes : Nat → RStr → Option RStr
  | b, [] => if b = 0 then some [] else none
  | b, c :: rest =>
      if b = 0 then some []
      else if c.utf8Size ≤ b then (takeBytes (b - c.utf8Size) rest).map (fun t => c :: t)
      else none

/-- Rust `str::trim`: drop leading and trailing whitespace.  (Lean's
`Char.isWhitespace` covers the ASCII whitespace involved here; Rust trims
all Unicode whitespace.) -/
def trimChars (s : RStr) : RStr :=
  ((s.dropWhile Char.isWhitespace).reverse.dropWhile Char.isWhitespace).reverse

/-- `truncate` (src/hsuf/transform.rs 256-262): keep short strings; longer
strings are byte-sliced at `limit - 3` (`saturating_sub` is `Nat`
subtraction), trimmed, and suffixed with three dots.  The byte slice
`&value[..limit - 3]` panics when the cut falls inside a multi-byte
character; the panic is modelled as `none`. -/
def truncate (value : RStr) (limit : Nat) : Option RStr :=
  if byteLen value ≤ limit then some value
  else (takeBytes (limit - 3) value).map (fun t => trimChars t ++ ['.', '.', '.'])

/-- Within the `else` branch, `build_listing_draft` calls
`truncate(&product.name, 80)` and `truncate(&description, 50000)`
(src/hsuf/transform.rs 51-52). -/
def c8FailingTitle : RStr := List.replicate 76 'a' ++ ['α', 'α', 'α']

theorem c8FailingTitle_byteLen : byteLen c8FailingTitle = 82 := by decide

/-- Claim C8 (code bug): the claim says truncation never fails or panics on
any input, including non-ASCII text.  The code slices at byte index
`limit - 3 = 77`; on a title of 76 ASCII characters followed by three
two-byte characters (82 bytes, so over the 80 limit), byte 77 falls in the
middle of the first two-byte character and the slice panics — modelled here
as `truncate` returning `none`. -/
theorem claim_C8_truncate_panics : truncate c8FailingTitle 80 = none := by decide

theorem truncate_short_ascii : truncate ("hello".data) 80 = some ("hello".data) := by decide

/- ======= C9: aspect reconciliation (src/hsuf/transform.rs 118-222) ====== -/

/-- `AspectValue` (src/ebay/taxonomy.rs 31-34); strings as character
lists. -/
structure AspectValue where
  localizedValue : RStr
deriving DecidableEq, Repr

/-- `AspectConstraint` (src/ebay/taxonomy.rs 36-44). -/
structure AspectConstraint where
  aspectMode : Option RStr
  aspectRequired : Option Bool
  itemToAspectCardinality : Option RStr
deriving DecidableEq, Repr

/-- `Aspect` (src/ebay/taxonomy.rs 22-29). -/
structure Aspect where
  localizedAspectName : RStr
  aspectValues : List AspectValue
  aspectConstraint : Option AspectConstraint
deriving DecidableEq, Repr

/-- `TaxonomyResponse` (src/ebay/taxonomy.rs 16-20). -/
structure TaxonomyResponse where
  aspects : List Aspect
deriving DecidableEq, Repr

inductive AspectMode where
  | freeText
  | selectionOnly
deriving DecidableEq, Repr

/-- Rust `char::to_uppercase`, ASCII fragment (constraint tags are
ASCII). -/
def upperChars (s : RStr) : RStr := s.map Char.toUpper

def lowerChars (s : RStr) : RStr := s.map Char.toLower

/-- `AspectMode::from_raw` (src/ebay/taxonomy.rs 52-60). -/
def AspectMode.from_raw (value : RStr) : Option AspectMode :=
  if upperChars value = "FREE_TEXT".data then some .freeText
  else if upperChars value = "SELECTION_ONLY".data then some .selectionOnly
  else none

inductive ItemCardinality where
  | multi
  | single
deriving DecidableEq, Repr

/-- `ItemCardinality::from_raw` (src/ebay/taxonomy.rs 68-75). -/
def ItemCardinality.from_raw (value : Option RStr) : ItemCardinality :=
  if upperChars (value.getD []) = "MULTI".data then .multi else .single

theorem dropWhileLengthLe (p : Char → Bool) (l : List Char) :
    (l.dropWhile p).length ≤ l.length := by
  induction l with
  | nil => simp [List.dropWhile]
  | cons r rs ih =>
      by_cases hr : p r = true
      · simp only [List.dropWhile, hr]
        exact Nat.le_trans ih (Nat.le_succ _)
      · simp only [List.dropWhile, hr]
        simp

/-- Rust `str::split_whitespace` (the words of the string, Unicode
whitespace separated; `Char.isWhitespace` covers the ASCII fragment). -/
def words : List Char → List (List Char)
  | [] => []
  | c :: rest =>
      if c.isWhitespace then words rest
      else (c :: rest.takeWhile (fun x => !x.isWhitespace)) ::
        words (rest.dropWhile (fun x => !x.isWhitespace))
termination_by cs => cs.length
decreasing_by
  all_goals simp_wf
  all_goals first
    | omega
    | exact Nat.lt_succ_of_le (dropWhileLengthLe _ _)

/-- `normalize_text` (src/hsuf/transform.rs 216-222):
`split_whitespace().join(" ").to_lowercase()`. -/
def normalize_text (value : RStr) : RStr :=
  lowerChars (List.intercalate [' '] (words value))

/-- The `allowed` HashMap of `apply_constraints`: the loop inserts
`normalize_text(value) -> value.trim()` for every aspect value in order, so
a lookup returns the data of the LAST aspect value with the looked-up
normalized key; modelled as the first match in the reversed list. -/
def allowedLookup (vals : List AspectValue) (key : RStr) : Option RStr :=
  (vals.reverse.find? (fun v => decide (normalize_text v.localizedValue = key))).map
    (fun v => trimChars v.localizedValue)

/-- `apply_constraints` (src/hsuf/transform.rs 188-214). -/
def apply_constraints (values : List RStr) (aspect : Aspect) : List RStr :=
  match aspect.aspectConstraint with
  | none => values
  | some constraint =>
      match constraint.aspectMode.bind AspectMode.from_raw with
      | some .selectionOnly =>
          values.filterMap (fun candidate =>
            allowedLookup aspect.aspectValues (normalize_text candidate))
      | _ => values

/-- `Brand` (src/hsuf/models.rs 7-11). -/
structure Brand where
  name : Option RStr
deriving DecidableEq, Repr

/-- `Product` (src/hsuf/models.rs 69-86), restricted to the fields the
modelled transform functions read (the polymorphic image/size and the
quantitative measurement fields feed only `extract_images`,
`build_fallback_description` and `estimate_package`, which no claim
exercises). -/
structure HsufProduct where
  name : RStr
  description : Option RStr
  brand : Option Brand
  color : Option RStr
  material : Option RStr
  sku : Option RStr
  mpn : Option RStr
deriving DecidableEq, Repr

/-- `extract_brand` (src/hsuf/transform.rs 170-177). -/
def extract_brand (product : HsufProduct) : List RStr :=
  match product.brand.bind (fun b => b.name) with
  | some value => [value]
  | none => []

/-- Rust `str::split` over a set of delimiter characters: produces the
(possibly empty) segments between delimiters. -/
def splitChars (p : Char → Bool) : List Char → List (List Char)
  | [] => [[]]
  | c :: rest =>
      if p c then [] :: splitChars p rest
      else
        match splitChars p rest with
        | [] => [[c]]
        | s :: ss => (c :: s) :: ss

/-- `split_field` (src/hsuf/transform.rs 179-186): split on
`/ | , & newline`, trim segments, drop empties. -/
def split_field (value : Option RStr) : List RStr :=
  match value with
  | none => []
  | some raw =>
      ((splitChars (fun c => c == '/' || c == '|' || c == ',' || c == '&' || c == '\n') raw).map
        trimChars).filter (fun segment => decide (segment ≠ []))

/-- `hsuf_values_for_aspect` (src/hsuf/transform.rs 151-168). -/
def hsuf_values_for_aspect (product : HsufProduct) (aspect : Aspect) : List RStr :=
  let normalized := lowerChars (trimChars aspect.localizedAspectName)
  if normalized = "brand".data ∨ normalized = "manufacturer".data then extract_brand product
  else if normalized = "color".data ∨ normalized = "main color".data then
    split_field product.color
  else if normalized = "mpn".data then (product.mpn.map (fun v => [v])).getD []
  else if normalized = "sku".data then (product.sku.map (fun v => [v])).getD []
  else []

/-- `BTreeMap::insert` key-overwrite semantics on an association list (the
sorted iteration order of the map is irrelevant to membership and is not
modelled). -/
def assocPut (k : RStr) (v : List RStr) : List (RStr × List RStr) → List (RStr × List RStr)
  | [] => [(k, v)]
  | (k2, v2) :: rest => if k2 = k then (k, v) :: rest else (k2, v2) :: assocPut k v rest

/-- The body of the `build_aspects` loop (src/hsuf/transform.rs 120-147):
skip blank aspect names, derive candidates, apply constraints, keep all
values for `MULTI` cardinality and only the first otherwise, and store
under the trimmed aspect name. -/
def buildAspectsStep (product : HsufProduct) (acc : List (RStr × List RStr))
    (aspect : Aspect) : List (RStr × List RStr) :=
  let name := trimChars aspect.localizedAspectName
  if name = [] then acc
  else
    let candidates := hsuf_values_for_aspect product aspect
    if candidates = [] then acc
    else
      let filtered := apply_constraints candidates aspect
      if filtered = [] then acc
      else
        let stored := match ItemCardinality.from_raw
            (aspect.aspectConstraint.bind (fun c => c.itemToAspectCardinality)) with
          | .multi => filtered
          | .single => filtered.take 1
        assocPut name stored acc

/-- `build_aspects` (src/hsuf/transform.rs 118-149). -/
def build_aspects (product : HsufProduct) (taxonomy : TaxonomyResponse) :
    List (RStr × List RStr) :=
  taxonomy.aspects.foldl (buildAspectsStep product) []

theorem words_cons (c : Char) (rest : List Char) :
    words (c :: rest) =
      if c.isWhitespace then words rest
      else (c :: rest.takeWhile (fun x => !x.isWhitespace)) ::
        words (rest.dropWhile (fun x => !x.isWhitespace)) := by
  rw [words]

theorem words_nil : words ([] : List Char) = [] := by
  rw [words]

theorem words_nil_of_ws (t : List Char) (ht : ∀ c ∈ t, c.isWhitespace = true) :
    words t = [] := by
  induction t with
  | nil => exact words_nil
  | cons c rest ih =>
      rw [words_cons, if_pos (ht c (List.mem_cons_self c rest))]
      exact ih (fun x hx => ht x (List.mem_cons_of_mem c hx))

theorem takeWhile_nws_append (cs t : List Char) (ht : ∀ c ∈ t, c.isWhitespace = true) :
    (cs ++ t).takeWhile (fun x => !x.isWhitespace) = cs.takeWhile (fun x => !x.isWhitespace) := by
  induction cs with
  | nil =>
      simp only [List.nil_append, List.takeWhile_nil]
      cases t with
      | nil => rfl
      | cons c r =>
          have hc := ht c (List.mem_cons_self c r)
          simp [List.takeWhile_cons, hc]
  | cons c cs ih =>
      by_cases h : c.isWhitespace = true
      · simp [List.takeWhile_cons, h]
      · simp only [List.cons_append, List.takeWhile_cons]
        simp only [Bool.not_eq_true] at h
        simp [h, ih]

theorem dropWhile_nws_append (cs t : List Char) (ht : ∀ c ∈ t, c.isWhitespace = true) :
    (cs ++ t).dropWhile (fun x => !x.isWhitespace) =
      cs.dropWhile (fun x => !x.isWhitespace) ++ t := by
  induction cs with
  | nil =>
      simp only [List.nil_append, List.dropWhile_nil]
      cases t with
      | nil => rfl
      | cons c r =>
          have hc := ht c (List.mem_cons_self c r)
          simp [List.dropWhile_cons, hc]
  | cons c cs ih =>
      by_cases h : c.isWhitespace = true
      · simp [List.dropWhile_cons, h, ih]
      · simp only [List.cons_append, List.dropWhile_cons]
        simp only [Bool.not_eq_true] at h
        simp [h, ih]

theorem words_append_ws (t : List Char) (ht : ∀ c ∈ t, c.isWhitespace = true)
    (cs : List Char) : words (cs ++ t) = words cs := by
  have key : ∀ n (cs : List Char), cs.length ≤ n → words (cs ++ t) = words cs := by
    intro n
    induction n with
    | zero =>
        intro cs hcs
        have hnil : cs = [] := List.eq_nil_of_length_eq_zero (Nat.le_zero.mp hcs)
        subst hnil
        simp only [List.nil_append, words_nil]
        exact words_nil_of_ws t ht
    | succ n ih =>
        intro cs hcs
        cases cs with
        | nil =>
            simp only [List.nil_append, words_nil]
            exact words_nil_of_ws t ht
        | cons c rest =>
            rw [List.cons_append, words_cons, words_cons]
            by_cases h : c.isWhitespace = true
            · rw [if_pos h, if_pos h]
              exact ih rest (Nat.succ_le_succ_iff.mp (by simpa using hcs))
            · rw [if_neg h, if_neg h]
              rw [takeWhile_nws_append rest t ht, dropWhile_nws_append rest t ht]
              have hlen : (rest.dropWhile (fun x => !x.isWhitespace)).length ≤ n :=
                Nat.le_trans (dropWhileLengthLe _ _)
                  (Nat.succ_le_succ_iff.mp (by simpa using hcs))
              rw [ih (rest.dropWhile (fun x => !x.isWhitespace)) hlen]
  exact key cs.length cs le_rfl

theorem words_dropWhile_ws (s : List Char) :
    words (s.dropWhile Char.isWhitespace) = words s := by
  induction s with
  | nil => rfl
  | cons c rest ih =>
      by_cases h : c.isWhitespace = true
      · rw [List.dropWhile_cons]
        simp only [h, if_true]
        rw [ih, words_cons, if_pos h]
      · rw [List.dropWhile_cons]
        simp [h]

theorem words_trimRight (u : List Char) :
    words ((u.reverse.dropWhile Char.isWhitespace).reverse) = words u := by
  have hdecomp : u = (u.reverse.dropWhile Char.isWhitespace).reverse ++
      (u.reverse.takeWhile Char.isWhitespace).reverse := by
    have := List.takeWhile_append_dropWhile (p := Char.isWhitespace) (l := u.reverse)
    calc u = u.reverse.reverse := by rw [List.reverse_reverse]
    _ = (u.reverse.takeWhile Char.isWhitespace ++ u.reverse.dropWhile Char.isWhitespace).reverse :=
        by rw [this]
    _ = (u.reverse.dropWhile Char.isWhitespace).reverse ++
        (u.reverse.takeWhile Char.isWhitespace).reverse := by rw [List.reverse_append]
  have hws : ∀ c ∈ (u.reverse.takeWhile Char.isWhitespace).reverse, c.isWhitespace = true := by
    intro c hc
    rw [List.mem_reverse] at hc
    exact List.mem_takeWhile_imp hc
  conv_rhs => rw [hdecomp]
  rw [words_append_ws _ hws]

theorem words_trimChars (s : List Char) : words (trimChars s) = words s := by
  unfold trimChars
  rw [words_trimRight, words_dropWhile_ws]

theorem normalize_text_trimChars (s : RStr) :
    normalize_text (trimChars s) = normalize_text s := by
  unfold normalize_text
  rw [words_trimChars]

theorem mem_assocPut (k : RStr) (v : List RStr) :
    ∀ (l : List (RStr × List RStr)) (x), x ∈ assocPut k v l → x = (k, v) ∨ x ∈ l := by
  intro l
  induction l with
  | nil =>
      intro x hx
      simp only [assocPut, List.mem_singleton] at hx
      exact Or.inl hx
  | cons p rest ih =>
      rcases p with ⟨k2, v2⟩
      intro x hx
      by_cases h : k2 = k
      · simp only [assocPut, if_pos h, List.mem_cons] at hx
        rcases hx with hx | hx
        · exact Or.inl hx
        · exact Or.inr (List.mem_cons_of_mem _ hx)
      · simp only [assocPut, if_neg h, List.mem_cons] at hx
        rcases hx with hx | hx
        · exact Or.inr (by simp [hx])
        · rcases ih x hx with hx2 | hx2
          · exact Or.inl hx2
          · exact Or.inr (List.mem_cons_of_mem _ hx2)

theorem buildAspectsStep_mem (product : HsufProduct) (acc : List (RStr × List RStr))
    (aspect : Aspect) (x : RStr × List RStr) (hx : x ∈ buildAspectsStep product acc aspect) :
    x ∈ acc ∨
      (x.1 = trimChars aspect.localizedAspectName ∧
        ∀ v ∈ x.2, v ∈ apply_constraints (hsuf_values_for_aspect product aspect) aspect) := by
  unfold buildAspectsStep at hx
  by_cases h1 : trimChars aspect.localizedAspectName = []
  · rw [if_pos h1] at hx
    exact Or.inl hx
  · rw [if_neg h1] at hx
    by_cases h2 : hsuf_values_for_aspect product aspect = []
    · rw [if_pos h2] at hx
      exact Or.inl hx
    · rw [if_neg h2] at hx
      by_cases h3 : apply_constraints (hsuf_values_for_aspect product aspect) aspect = []
      · rw [if_pos h3] at hx
        exact Or.inl hx
      · rw [if_neg h3] at hx
        rcases mem_assocPut _ _ acc x hx with hx2 | hx2
        · right
          subst hx2
          refine ⟨rfl, ?_⟩
          intro v hv
          rcases hcard : ItemCardinality.from_raw
              (aspect.aspectConstraint.bind (fun c => c.itemToAspectCardinality)) with _ | _
          · rw [hcard] at hv
            exact hv
          · rw [hcard] at hv
            exact List.take_subset 1 _ hv
        · exact Or.inl hx2

theorem build_aspects_sound (product : HsufProduct) (taxonomy : TaxonomyResponse) :
    ∀ x ∈ build_aspects product taxonomy, ∃ asp ∈ taxonomy.aspects,
      x.1 = trimChars asp.localizedAspectName ∧
      ∀ v ∈ x.2, v ∈ apply_constraints (hsuf_values_for_aspect product asp) asp := by
  have key : ∀ (l : List Aspect) (acc : List (RStr × List RStr)),
      (∀ a ∈ l, a ∈ taxonomy.aspects) →
      (∀ x ∈ acc, ∃ asp ∈ taxonomy.aspects,
        x.1 = trimChars asp.localizedAspectName ∧
        ∀ v ∈ x.2, v ∈ apply_constraints (hsuf_values_for_aspect product asp) asp) →
      ∀ x ∈ l.foldl (buildAspectsStep product) acc, ∃ asp ∈ taxonomy.aspects,
        x.1 = trimChars asp.localizedAspectName ∧
        ∀ v ∈ x.2, v ∈ apply_constraints (hsuf_values_for_aspect product asp) asp := by
    intro l
    induction l with
    | nil => intro acc _ hacc x hx; exact hacc x hx
    | cons a rest ih =>
        intro acc hl hacc x hx
        simp only [List.foldl_cons] at hx
        refine ih (buildAspectsStep product acc a)
          (fun b hb => hl b (List.mem_cons_of_mem a hb)) ?_ x hx
        intro y hy
        rcases buildAspectsStep_mem product acc a y hy with hmem | ⟨hname, hsub⟩
        · exact hacc y hmem
        · exact ⟨a, hl a (List.mem_cons_self a rest), hname, hsub⟩
  intro x hx
  exact key taxonomy.aspects [] (fun a ha => ha) (by simp) x hx

/-- Claim C9: for an aspect whose constraint mode resolves to
`SELECTION_ONLY`, every value `apply_constraints` emits is the trimmed text
of some taxonomy aspect value (the taxonomy's original casing, not the
candidate's), and after whitespace collapse and case folding it equals that
aspect value; moreover every value `build_aspects` stores for an aspect
came out of `apply_constraints` for that aspect. -/
theorem claim_C9_selection_only (values : List RStr) (aspect : Aspect)
    (constraint : AspectConstraint) (product : HsufProduct) (taxonomy : TaxonomyResponse)
    (hc : aspect.aspectConstraint = some constraint)
    (hmode : constraint.aspectMode.bind AspectMode.from_raw = some AspectMode.selectionOnly) :
    (∀ v ∈ apply_constraints values aspect,
      ∃ av ∈ aspect.aspectValues,
        v = trimChars av.localizedValue ∧
        normalize_text v = normalize_text av.localizedValue) ∧
    (∀ x ∈ build_aspects product taxonomy, ∃ asp ∈ taxonomy.aspects,
      x.1 = trimChars asp.localizedAspectName ∧
      ∀ v ∈ x.2, v ∈ apply_constraints (hsuf_values_for_aspect product asp) asp) := by
  constructor
  · intro v hv
    unfold apply_constraints at hv
    rw [hc] at hv
    dsimp only at hv
    rw [hmode] at hv
    dsimp only at hv
    rcases List.mem_filterMap.mp hv with ⟨candidate, _, hfind⟩
    unfold allowedLookup at hfind
    rcases Option.map_eq_some'.mp hfind with ⟨av, hsome, htrim⟩
    have havmem : av ∈ aspect.aspectValues :=
      List.mem_reverse.mp (List.mem_of_find?_eq_some hsome)
    refine ⟨av, havmem, htrim.symm, ?_⟩
    rw [← htrim]
    exact normalize_text_trimChars av.localizedValue
  · exact build_aspects_sound product taxonomy

/-- Witness for C9: a `SELECTION_ONLY` Brand aspect (as synthesized by
`fetch_taxonomy`) with a candidate differing from the taxonomy value only
in case and spacing. -/
def c9Aspect : Aspect :=
  { localizedAspectName := "Brand".data
    aspectValues := [{ localizedValue := "Hermes Labs".data }, { localizedValue := "Demo Labs".data }]
    aspectConstraint := some
      { aspectMode := some "SELECTION_ONLY".data
        aspectRequired := some true
        itemToAspectCardinality := some "MULTI".data } }

def c9Product : HsufProduct :=
  { name := "Demo".data
    description := none
    brand := some { name := some "hermes   labs".data }
    color := none
    material := none
    sku := none
    mpn := none }

def c9Taxonomy : TaxonomyResponse := { aspects := [c9Aspect] }

theorem claim_C9_witness :
    c9Aspect.aspectConstraint = some
      { aspectMode := some "SELECTION_ONLY".data
        aspectRequired := some true
        itemToAspectCardinality := some "MULTI".data } ∧
    (∀ v ∈ apply_constraints ["hermes   labs".data] c9Aspect,
      ∃ av ∈ c9Aspect.aspectValues,
        v = trimChars av.localizedValue ∧
        normalize_text v = normalize_text av.localizedValue) ∧
    (∀ x ∈ build_aspects c9Product c9Taxonomy, ∃ asp ∈ c9Taxonomy.aspects,
      x.1 = trimChars asp.localizedAspectName ∧
      ∀ v ∈ x.2, v ∈ apply_constraints (hsuf_values_for_aspect c9Product asp) asp) := by
  refine ⟨rfl, ?_⟩
  exact claim_C9_selection_only ["hermes   labs".data] c9Aspect _ c9Product c9Taxonomy rfl
    (by decide)


/- ======= C6: API-key authentication (src/security.rs 52-161) =========== -/

/-- The two headers `extract_api_key` reads, as character lists.  Header
values that survive `HeaderValue::to_str` are ASCII, so Rust byte indexing
and character indexing agree on them. -/
structure HeaderMapModel where
  authorization : Option RStr
  xHermesKey : Option RStr
deriving DecidableEq, Repr

/-- ASCII lower-casing, as used by `eq_ignore_ascii_case`. -/
def asciiLower (s : RStr) : RStr := s.map Char.toLower

/-- The `X-Hermes-Key` fallback of `extract_api_key` (src/security.rs
91-96): trim, reject empty. -/
def xHermesLookup (headers : HeaderMapModel) : Option RStr :=
  (headers.xHermesKey.map trimChars).filter (fun value => decide (value ≠ []))

/-- `extract_api_key` (src/security.rs 83-96): prefer an `Authorization`
value whose first six characters case-insensitively read `bearer` and whose
length is at least 7, taking the trimmed remainder (note: without rejecting
an empty remainder); otherwise fall back to `X-Hermes-Key`. -/
def extract_api_key (headers : HeaderMapModel) : Option RStr :=
  match headers.authorization with
  | some raw =>
      if 7 ≤ raw.length ∧ asciiLower (raw.take 6) = "bearer".data then
        some (trimChars (raw.drop 6))
      else xHermesLookup headers
  | none => xHermesLookup headers

/-- `OrgRecord` (src/security.rs 27-31). -/
structure OrgRecord where
  org_id : RStr
  api_key_id : RStr
deriving DecidableEq, Repr

/-- `AuthContext` (src/security.rs 21-25). -/
structure AuthContext where
  org_id : RStr
  api_key_id : RStr
deriving DecidableEq, Repr

/-- `HashMap::insert` on a string-keyed association list (overwrite on
equal key). -/
def upsertKeys (k : RStr) (v : OrgRecord) :
    List (RStr × OrgRecord) → List (RStr × OrgRecord)
  | [] => [(k, v)]
  | (k2, v2) :: rest => if k2 = k then (k, v) :: rest else (k2, v2) :: upsertKeys k v rest

/-- `HashMap::get` on the association list. -/
def lookupKey (entries : List (RStr × OrgRecord)) (k : RStr) : Option OrgRecord :=
  (entries.find? (fun e => e.1 == k)).map (fun e => e.2)

def digitChar (n : Nat) : Char := Char.ofNat (48 + n)

def natToCharsAux : Nat → Nat → RStr
  | 0, _ => []
  | fuel + 1, n =>
      if n < 10 then [digitChar n]
      else natToCharsAux fuel (n / 10) ++ [digitChar (n % 10)]

/-- Decimal rendering of a natural number. -/
def natToChars (n : Nat) : RStr := natToCharsAux (n + 1) n

/-- Rust format `key-{:02}`: zero-pad to two digits. -/
def pad2 (n : Nat) : RStr := if n < 10 then '0' :: natToChars n else natToChars n

/-- Rust `str::splitn(2, ':')`: the text before the first colon, and the
(possibly colon-containing) rest when a colon occurs. -/
def splitn2Colon (s : RStr) : RStr × Option RStr :=
  let pre := s.takeWhile (fun c => !(c == ':'))
  match s.dropWhile (fun c => !(c == ':')) with
  | [] => (pre, none)
  | _ :: tail => (pre, some tail)

/-- `load_keys_from_env` (src/security.rs 114-161): parse
`org:key,org:key,...` (the raw argument is `DEMO_API_KEYS`, defaulting to
`demo-org:demo-key` when the variable is unset), skipping blank and
malformed entries, keying the table by the secret; fall back to the demo
credential when nothing parses.  Logging is not modelled. -/
def load_keys_from_env (raw : RStr) : List (RStr × OrgRecord) :=
  let entries := ((splitChars (fun c => c == ',') raw).enum).foldl (fun acc idxToken =>
    let trimmed := trimChars idxToken.2
    if trimmed = [] then acc
    else
      let parts := splitn2Colon trimmed
      let org := (some (trimChars parts.1)).filter (fun s => decide (s ≠ []))
      let key := (parts.2.map trimChars).filter (fun s => decide (s ≠ []))
      match org, key with
      | some orgId, some secret =>
          upsertKeys secret
            { org_id := orgId, api_key_id := "key-".data ++ pad2 (idxToken.1 + 1) } acc
      | _, _ => acc) []
  if entries = [] then
    [("demo-key".data, { org_id := "demo-org".data, api_key_id := "key-01".data })]
  else entries

/-- `AuthState::authenticate` (src/security.rs 40-45). -/
def authenticate (records : List (RStr × OrgRecord)) (presented : RStr) :
    Option AuthContext :=
  (lookupKey records presented).map (fun r =>
    { org_id := r.org_id, api_key_id := r.api_key_id })

/-- The decision taken by the `require_api_auth` middleware before rate
limiting: 401 `missing_api_key`, 401 `invalid_api_key`, or admission of the
authenticated context (which then proceeds to the token-bucket limiter of
claim C3). -/
inductive AuthDecision where
  | missingKey
  | invalidKey
  | admitted (context : AuthContext)
deriving DecidableEq, Repr

/-- `require_api_auth` (src/security.rs 52-81), up to the rate-limit
consume. -/
def require_api_auth (records : List (RStr × OrgRecord)) (headers : HeaderMapModel) :
    AuthDecision :=
  match extract_api_key headers with
  | none => .missingKey
  | some presented =>
      match authenticate records presented with
      | none => .invalidKey
      | some context => .admitted context

/-- Counterexample to claim C6: an `Authorization: Bearer` header whose key
part is all whitespace trims to the empty string, yet the middleware
answers `invalid_api_key`, not the `missing_api_key` the claim requires for
a key that trims to empty (only the `X-Hermes-Key` path filters out empty
values). -/
theorem claim_C6_counterexample :
    extract_api_key { authorization := some "Bearer   ".data, xHermesKey := none } =
      some [] ∧
    require_api_auth (load_keys_from_env "demo-org:demo-key".data)
      { authorization := some "Bearer   ".data, xHermesKey := none } =
      AuthDecision.invalidKey ∧
    require_api_auth (load_keys_from_env "demo-org:demo-key".data)
      { authorization := some "Bearer   ".data, xHermesKey := none } ≠
      AuthDecision.missingKey := by
  refine ⟨by decide, by decide, by decide⟩

/-- Claim C6 as amended: no extracted key gives 401 `missing_api_key`; an
extracted key absent from the table gives 401 `invalid_api_key`; a known
key is admitted.  The key is taken from `Authorization` when its first six
characters case-insensitively read `bearer` and its length is at least 7,
as the trimmed remainder WITHOUT an emptiness check — so an all-whitespace
Bearer key is presented as the empty string and, the table holding no empty
secret, is rejected as `invalid_api_key` rather than `missing_api_key`.
Otherwise the key comes from `X-Hermes-Key`, trimmed, with empty values
discarded. -/
theorem claim_C6_auth_decisions (records : List (RStr × OrgRecord))
    (headers : HeaderMapModel) :
    (extract_api_key headers = none → require_api_auth records headers = .missingKey) ∧
    (∀ presented, extract_api_key headers = some presented →
      (authenticate records presented = none →
        require_api_auth records headers = .invalidKey) ∧
      (∀ context, authenticate records presented = some context →
        require_api_auth records headers = .admitted context)) ∧
    (∀ raw, headers.authorization = some raw → 7 ≤ raw.length →
      asciiLower (raw.take 6) = "bearer".data →
      extract_api_key headers = some (trimChars (raw.drop 6))) ∧
    ((∀ raw, headers.authorization = some raw →
        ¬(7 ≤ raw.length ∧ asciiLower (raw.take 6) = "bearer".data)) →
      extract_api_key headers = xHermesLookup headers) ∧
    (∀ raw, headers.authorization = some raw → 7 ≤ raw.length →
      asciiLower (raw.take 6) = "bearer".data → trimChars (raw.drop 6) = [] →
      lookupKey records [] = none →
      require_api_auth records headers = .invalidKey) := by
  refine ⟨?_, ?_, ?_, ?_, ?_⟩
  · intro h
    simp [require_api_auth, h]
  · intro presented hp
    constructor
    · intro hauth
      simp [require_api_auth, hp, hauth]
    · intro context hauth
      simp [require_api_auth, hp, hauth]
  · intro raw hraw hlen hlower
    simp [extract_api_key, hraw, hlen, hlower]
  · intro hno
    cases hauth : headers.authorization with
    | none => simp [extract_api_key, hauth]
    | some raw =>
        have := hno raw hauth
        simp only [extract_api_key, hauth]
        rw [if_neg this]
  · intro raw hraw hlen hlower htrim hlook
    have hext : extract_api_key headers = some [] := by
      simp [extract_api_key, hraw, hlen, hlower, htrim]
    simp [require_api_auth, hext, authenticate, hlook]

/-- Witness for C6 (amended): the default key table admits ` demo-key `
presented through `X-Hermes-Key`, and the all-whitespace Bearer header is
rejected with `invalid_api_key`. -/
theorem claim_C6_witness :
    require_api_auth (load_keys_from_env "demo-org:demo-key".data)
      { authorization := none, xHermesKey := some " demo-key ".data } =
      AuthDecision.admitted { org_id := "demo-org".data, api_key_id := "key-01".data } ∧
    require_api_auth (load_keys_from_env "demo-org:demo-key".data)
      { authorization := some "Bearer   ".data, xHermesKey := none } =
      AuthDecision.invalidKey := by
  constructor
  · exact ((claim_C6_auth_decisions (load_keys_from_env "demo-org:demo-key".data)
      { authorization := none, xHermesKey := some " demo-key ".data }).2.1 "demo-key".data
      (by decide)).2 { org_id := "demo-org".data, api_key_id := "key-01".data } (by decide)
  · exact (claim_C6_auth_decisions (load_keys_from_env "demo-org:demo-key".data)
      { authorization := some "Bearer   ".data, xHermesKey := none }).2.2.2.2 "Bearer   ".data
      rfl (by decide) (by decide) (by decide) (by decide)

/- ======= Request and response model (src/models.rs) ==================== -/

/-- `ImagesSource` (src/models.rs 113-119); image text as character
lists. -/
inductive ImagesSource where
  | single (value : RStr)
  | multiple (values : List RStr)
deriving DecidableEq, Repr

/-- `MarketplaceId` (src/models.rs 84-92). -/
inductive MarketplaceId where
  | ebayUs
  | ebayUk
  | ebayDe
deriving DecidableEq, Repr

/-- `MarketplaceId::ebay_code` (src/models.rs 95-101). -/
def MarketplaceId.ebay_code : MarketplaceId → String
  | .ebayUs => "EBAY_US"
  | .ebayUk => "EBAY_GB"
  | .ebayDe => "EBAY_DE"

/-- `CategorySelectionInput` (src/models.rs 65-72). -/
structure CategorySelectionInput where
  id : String
  tree_id : String
  label : String
  confidence : ℚ
  rationale : String
deriving DecidableEq, Repr

/-- `PipelineOverrides` (src/models.rs 74-82).  The `product` override is a
JSON value whose deserialization into `Product` may fail: `some (some p)`
models a value parsing to `p`, `some none` a malformed value. -/
structure PipelineOverrides where
  resolved_images : Option (List RStr)
  category : Option CategorySelectionInput
  product : Option (Option HsufProduct)
deriving DecidableEq, Repr

/-- `ListingRequest` (src/models.rs 5-31).  The three unused
`llm_provider`/`llm_*_model` hint fields (marked dead code in the source)
are omitted. -/
structure ListingRequestM where
  images_source : ImagesSource
  sku : String
  merchant_location_key : String
  fulfillment_policy_id : String
  payment_policy_id : String
  return_policy_id : String
  marketplace : MarketplaceId
  use_signed_urls : Bool
  overrides : Option PipelineOverrides
  dry_run : Bool
deriving DecidableEq, Repr

/-- `ListingResponse` (src/models.rs 33-37), reduced to the listing id and
the ordered stage-report names; per-stage wall-clock timings and the
free-form output documents are not modelled. -/
structure ListingResponseM where
  listing_id : String
  stages : List String
deriving DecidableEq, Repr

/-- The sample request of the pipeline test module (src/pipeline.rs
528-547). -/
def sampleRequest : ListingRequestM :=
  { images_source := .multiple ["https://example.com/a.jpg".data, "https://example.com/b.jpg".data]
    sku := "test-sku-001"
    merchant_location_key := "loc-1"
    fulfillment_policy_id := "fulfill-123"
    payment_policy_id := "payment-123"
    return_policy_id := "return-123"
    marketplace := .ebayUs
    use_signed_urls := false
    overrides := none
    dry_run := false }

/- ======= C7: job queue enqueue (src/jobs.rs 48-120) ==================== -/

/-- `ApiError` (src/models.rs 58-63). -/
structure ApiErrorM where
  error : String
  detail : Option String
deriving DecidableEq, Repr

/-- `JobState` (src/jobs.rs 27-39). -/
inductive JobStateM where
  | queued
  | running
  | completed (result : ListingResponseM)
  | failed (error : String) (stage : Option String)
deriving DecidableEq, Repr

/-- `Job` (src/jobs.rs 20-25). -/
structure JobM where
  id : String
  request : ListingRequestM
  context : AuthContext
deriving DecidableEq, Repr

/-- A tokio bounded mpsc channel from the sending side: the buffered jobs,
the capacity (`QUEUE_CAPACITY`, default 64) and whether the receiver has
been dropped. -/
structure BoundedChannel where
  capacity : Nat
  buffer : List JobM
  closed : Bool
deriving DecidableEq, Repr

/-- The outcome of one `Sender::send(job).await`. -/
inductive SendOutcome where
  | sent (channel : BoundedChannel)
  | blocked
  | closedChannel
deriving DecidableEq, Repr

/-- tokio `mpsc::Sender::send(..).await`: errors exactly when the receiver
is gone; when the buffer is full the call SUSPENDS until capacity frees
(`blocked`) — it does not error.  (The non-blocking variant would be
`try_send`, which the source does not use.) -/
def mpscSendAwait (channel : BoundedChannel) (job : JobM) : SendOutcome :=
  if channel.closed then .closedChannel
  else if channel.buffer.length < channel.capacity then
    .sent { channel with buffer := channel.buffer ++ [job] }
  else .blocked

/-- `HashMap::insert` on an association list. -/
def assocUpsert {κ β : Type} [DecidableEq κ] (k : κ) (v : β) :
    List (κ × β) → List (κ × β)
  | [] => [(k, v)]
  | (k2, v2) :: rest => if k2 = k then (k, v) :: rest else (k2, v2) :: assocUpsert k v rest

/-- `HashMap::get` on the association list. -/
def assocLookup {κ β : Type} [DecidableEq κ] (entries : List (κ × β)) (k : κ) : Option β :=
  (entries.find? (fun e => decide (e.1 = k))).map (fun e => e.2)

/-- `JobQueue::enqueue_listing` (src/jobs.rs 83-103): generate a UUID
(supplied as `freshId`; `Uuid::new_v4` is a random source), record state
`Queued` in the shared status map, then `tx.send(job).await`.  Returns the
updated status map, the send outcome, and the value the handler returns —
`none` while the send is still suspended awaiting channel capacity. -/
def enqueue_listing (statuses : List (String × JobStateM)) (channel : BoundedChannel)
    (freshId : String) (request : ListingRequestM) (context : AuthContext) :
    (List (String × JobStateM)) × SendOutcome × Option (Except ApiErrorM String) :=
  let statuses2 := assocUpsert freshId JobStateM.queued statuses
  let job : JobM := { id := freshId, request := request, context := context }
  match mpscSendAwait channel job with
  | .closedChannel =>
      (statuses2, .closedChannel,
        some (.error { error := "queue_send_failed", detail := some "worker not available" }))
  | .sent channel2 => (statuses2, .sent channel2, some (.ok freshId))
  | .blocked => (statuses2, .blocked, none)

def demoAuthContext : AuthContext :=
  { org_id := "demo-org".data, api_key_id := "key-01".data }

/-- A full but open channel: one slot, one queued job, receiver alive. -/
def c7FullChannel : BoundedChannel :=
  { capacity := 1
    buffer := [{ id := "job-0", request := sampleRequest, context := demoAuthContext }]
    closed := false }

/-- Counterexample to claim C7: on a FULL but open channel the enqueue does
not return `queue_send_failed` — the `send(..).await` suspends until
capacity frees (the error is returned only when the channel is closed,
i.e. the worker is gone). -/
theorem claim_C7_counterexample :
    (enqueue_listing [] c7FullChannel "7b6a4a1e" sampleRequest demoAuthContext).2.1 =
      SendOutcome.blocked ∧
    (enqueue_listing [] c7FullChannel "7b6a4a1e" sampleRequest demoAuthContext).2.2 = none ∧
    (enqueue_listing [] c7FullChannel "7b6a4a1e" sampleRequest demoAuthContext).2.2 ≠
      some (.error { error := "queue_send_failed", detail := some "worker not available" }) := by
  have hres : (enqueue_listing [] c7FullChannel "7b6a4a1e" sampleRequest
      demoAuthContext).2.2 = none := rfl
  refine ⟨by decide, hres, ?_⟩
  rw [hres]
  simp

theorem assocLookup_assocUpsert {κ β : Type} [DecidableEq κ] (k : κ) (v : β) :
    ∀ l : List (κ × β), assocLookup (assocUpsert k v l) k = some v := by
  intro l
  induction l with
  | nil => simp [assocUpsert, assocLookup, List.find?]
  | cons p rest ih =>
      rcases p with ⟨k2, v2⟩
      by_cases h : k2 = k
      · simp [assocUpsert, assocLookup, List.find?, h]
      · have hdec : decide (k2 = k) = false := by
          simp [h]
        simp only [assocUpsert, if_neg h]
        simpa [assocLookup, List.find?, hdec] using ih

/-- Claim C7 as amended: the enqueue records `Queued` under the fresh UUID
in the status map before the send completes, in every outcome; the send to
the worker channel AWAITS capacity — on a full open channel the handler
suspends (`blocked`, no value returned) rather than failing — and
`queue_send_failed` (detail `worker not available`) is returned exactly
when the channel is closed. -/
theorem claim_C7_enqueue (statuses : List (String × JobStateM)) (channel : BoundedChannel)
    (freshId : String) (request : ListingRequestM) (context : AuthContext) :
    assocLookup (enqueue_listing statuses channel freshId request context).1 freshId =
      some JobStateM.queued ∧
    (channel.closed = true →
      (enqueue_listing statuses channel freshId request context).2.2 =
        some (.error { error := "queue_send_failed", detail := some "worker not available" })) ∧
    (channel.closed = false → channel.buffer.length < channel.capacity →
      (enqueue_listing statuses channel freshId request context).2.2 = some (.ok freshId) ∧
      (enqueue_listing statuses channel freshId request context).2.1 =
        .sent { channel with buffer :=
          channel.buffer ++ [{ id := freshId, request := request, context := context }] }) ∧
    (channel.closed = false → ¬ channel.buffer.length < channel.capacity →
      (enqueue_listing statuses channel freshId request context).2.2 = none ∧
      (enqueue_listing statuses channel freshId request context).2.1 = .blocked) := by
  refine ⟨?_, ?_, ?_, ?_⟩
  · unfold enqueue_listing
    cases houtcome : mpscSendAwait channel
      { id := freshId, request := request, context := context } <;>
      simp [houtcome, assocLookup_assocUpsert]
  · intro hclosed
    simp [enqueue_listing, mpscSendAwait, hclosed]
  · intro hclosed hroom
    constructor
    · simp [enqueue_listing, mpscSendAwait, hclosed, hroom]
    · simp [enqueue_listing, mpscSendAwait, hclosed, hroom]
  · intro hclosed hfull
    constructor
    · simp [enqueue_listing, mpscSendAwait, hclosed, hfull]
    · simp [enqueue_listing, mpscSendAwait, hclosed, hfull]

/-- Witness for C7 (amended) on an open channel with room, a closed
channel, and the full open channel. -/
theorem claim_C7_witness :
    (enqueue_listing [] { capacity := 64, buffer := [], closed := false }
      "7b6a4a1e" sampleRequest demoAuthContext).2.2 = some (.ok "7b6a4a1e") ∧
    (enqueue_listing [] { capacity := 64, buffer := [], closed := true }
      "7b6a4a1e" sampleRequest demoAuthContext).2.2 =
      some (.error { error := "queue_send_failed", detail := some "worker not available" }) ∧
    (enqueue_listing [] c7FullChannel "7b6a4a1e" sampleRequest demoAuthContext).2.2 = none := by
  refine ⟨?_, ?_, ?_⟩
  · exact ((claim_C7_enqueue [] { capacity := 64, buffer := [], closed := false }
      "7b6a4a1e" sampleRequest demoAuthContext).2.2.1 rfl (by decide)).1
  · exact (claim_C7_enqueue [] { capacity := 64, buffer := [], closed := true }
      "7b6a4a1e" sampleRequest demoAuthContext).2.1 rfl
  · exact ((claim_C7_enqueue [] c7FullChannel
      "7b6a4a1e" sampleRequest demoAuthContext).2.2.2 rfl (by decide)).1

/- ======= C4: resolve_images (src/pipeline.rs 811-896, 1280-1331, 1506) = -/

/-- The split set of `tokenize` (src/pipeline.rs 1280-1291): newline,
comma, semicolon, pipe. -/
def imageDelims (c : Char) : Bool := c == '\n' || c == ',' || c == ';' || c == '|'

/-- `tokenize` (src/pipeline.rs 1280-1291): split when any delimiter
occurs, trimming entries and dropping empties; otherwise the trimmed whole
string. -/
def tokenize (value : RStr) : List RStr :=
  if value.any imageDelims then
    ((splitChars imageDelims value).map trimChars).filter (fun entry => decide (entry ≠ []))
  else [trimChars value]

/-- Substring containment, Rust `str::contains(pattern)`. -/
def containsSub (s pat : RStr) : Bool :=
  (List.range (s.length + 1)).any (fun i => pat.isPrefixOf (s.drop i))

/-- `add_signature` (src/pipeline.rs 1323-1331). -/
def add_signature (url : RStr) : RStr :=
  if containsSub url "signature=demo".data then url
  else if url.contains '?' then url ++ "&signature=demo".data
  else url ++ "?signature=demo".data

/-- The `HashSet`-based first-occurrence deduplication (src/pipeline.rs
1312-1321). -/
def dedupAux (seen : List RStr) : List RStr → List RStr
  | [] => []
  | v :: rest => if v ∈ seen then dedupAux seen rest else v :: dedupAux (v :: seen) rest

def deduplicate (values : List RStr) : List RStr := dedupAux [] values

/-- The image list `resolved` of `stages::resolve_images` (src/pipeline.rs
815-834): tokenize the single or the multiple source form, trim and drop
empties, optionally sign, deduplicate. -/
def resolvedImages (req : ListingRequestM) : List RStr :=
  let tokens :=
    match req.images_source with
    | .single value => tokenize value
    | .multiple values => values.flatMap tokenize
  let cleaned := (tokens.map trimChars).filter (fun entry => decide (entry ≠ []))
  let signed := if req.use_signed_urls then cleaned.map add_signature else cleaned
  deduplicate signed

/-- The scheme/host data the model needs from `reqwest::Url::parse`; the
parser itself is an external library and is a parameter of the model. -/
structure UrlParts where
  scheme : RStr
  host : Option RStr
deriving DecidableEq, Repr

/-- `host_allowed` (src/pipeline.rs 1305-1310): exact or `.suffix` match
against the (already lower-cased) allowlist. -/
def host_allowed (host : RStr) (allowed : List RStr) : Bool :=
  let h := lowerChars host
  allowed.any (fun d => h == d || ('.' :: d).isSuffixOf h)

/-- The per-URL validation of the `for url in &resolved` loop
(src/pipeline.rs 853-880): parse failure, non-http(s) scheme, or a
configured allowlist rejecting the host. -/
def urlError (parse : RStr → Option UrlParts) (allowlist : Option (List RStr))
    (url : RStr) : Option PipelineError :=
  match parse url with
  | none =>
      some (PipelineError.invalid_input "resolve_images"
        ("invalid_image_url: " ++ String.mk url))
  | some parsed =>
      if parsed.scheme = "http".data ∨ parsed.scheme = "https".data then
        match allowlist, parsed.host with
        | some allowed, some host =>
            if host_allowed host allowed then none
            else some (PipelineError.invalid_input "resolve_images"
              ("domain_not_allowed: " ++ String.mk host))
        | _, _ => none
      else
        some (PipelineError.invalid_input "resolve_images"
          ("unsupported_url_scheme: " ++ String.mk url))

/-- The validation loop over all resolved URLs, first error wins. -/
def checkUrls (parse : RStr → Option UrlParts) (allowlist : Option (List RStr)) :
    List RStr → Option PipelineError
  | [] => none
  | url :: rest =>
      match urlError parse allowlist url with
      | some e => some e
      | none => checkUrls parse allowlist rest

/-- `max_images_allowed` (src/pipeline.rs 1506-1512): parse `MAX_IMAGES`,
keep values at least 1, default 6. -/
def max_images_allowed (envValue : Option String) : Nat :=
  ((envValue.bind String.toNat?).filter (fun v => decide (1 ≤ v))).getD 6

/-- `stages::resolve_images` (src/pipeline.rs 811-896): resolve, reject
over-long lists, reject empty, validate every URL.  The async pause and the
JSON output document carry no data and are not modelled. -/
def resolve_images (parse : RStr → Option UrlParts) (maxImages : Nat)
    (allowlist : Option (List RStr)) (req : ListingRequestM) :
    Except PipelineError (List RStr) :=
  let resolved := resolvedImages req
  if maxImages < resolved.length then
    .error (PipelineError.invalid_input "resolve_images" "too_many_images")
  else if resolved = [] then
    .error (PipelineError.invalid_input "resolve_images" "no images provided")
  else
    match checkUrls parse allowlist resolved with
    | some e => .error e
    | none => .ok resolved

/-- The claim's per-entry rejection conditions: the entry fails URL
parsing; or its scheme is neither http nor https; or an allowlist is
configured and the host matches neither exactly nor as a `.suffix`. -/
def urlViolation (parse : RStr → Option UrlParts) (allowlist : Option (List RStr))
    (url : RStr) : Prop :=
  parse url = none ∨
  (∃ p, parse url = some p ∧ p.scheme ≠ "http".data ∧ p.scheme ≠ "https".data) ∨
  (∃ p allowed host, parse url = some p ∧ allowlist = some allowed ∧
    p.host = some host ∧ host_allowed host allowed = false)

theorem urlError_none_iff (parse : RStr → Option UrlParts) (allowlist : Option (List RStr))
    (url : RStr) : urlError parse allowlist url = none ↔ ¬ urlViolation parse allowlist url := by
  unfold urlError urlViolation
  cases hp : parse url with
  | none => simp [hp]
  | some parsed =>
      simp only [hp, Option.some.injEq]
      by_cases hd : parsed.scheme = "http".data ∨ parsed.scheme = "https".data
      · rw [if_pos hd]
        have hnoscheme : ¬ ∃ p, parsed = p ∧ p.scheme ≠ "http".data ∧ p.scheme ≠ "https".data := by
          rintro ⟨p, hp2, hA, hB⟩
          subst hp2
          rcases hd with hs | hs
          · exact hA hs
          · exact hB hs
        cases allowlist with
        | none =>
            constructor
            · intro _ hviol
              rcases hviol with h | h | ⟨p, al, h2, _, hal2, _, _⟩
              · exact Option.noConfusion h
              · exact hnoscheme h
              · exact Option.noConfusion hal2
            · intro _
              cases hh : parsed.host <;> rfl
        | some allowed =>
            cases hh : parsed.host with
            | none =>
                constructor
                · intro _ hviol
                  rcases hviol with h | h | ⟨p, al, h2, hp2, _, hh2, _⟩
                  · exact Option.noConfusion h
                  · exact hnoscheme h
                  · subst hp2
                    rw [hh] at hh2
                    exact Option.noConfusion hh2
                · intro _
                  rfl
            | some host =>
                dsimp only
                by_cases hok : host_allowed host allowed = true
                · rw [if_pos hok]
                  constructor
                  · intro _ hviol
                    rcases hviol with h | h | ⟨p, al, h2, hp2, hal2, hh2, hbad⟩
                    · exact Option.noConfusion h
                    · exact hnoscheme h
                    · subst hp2
                      rw [hh] at hh2
                      injection hh2 with hh3
                      injection hal2 with hal3
                      rw [← hh3, ← hal3, hok] at hbad
                      exact Bool.noConfusion hbad
                  · intro _
                    rfl
                · rw [if_neg hok]
                  constructor
                  · intro h
                    exact Option.noConfusion h
                  · intro hnv
                    exact absurd (Or.inr (Or.inr ⟨parsed, allowed, host, rfl, rfl, hh,
                      Bool.eq_false_iff.mpr hok⟩)) hnv
      · rw [if_neg hd]
        obtain ⟨hA, hB⟩ := not_or.mp hd
        constructor
        · intro h
          exact Option.noConfusion h
        · intro hnv
          exact absurd (Or.inr (Or.inl ⟨parsed, rfl, hA, hB⟩)) hnv

theorem urlError_invalid (parse : RStr → Option UrlParts) (allowlist : Option (List RStr))
    (url : RStr) (e : PipelineError) (h : urlError parse allowlist url = some e) :
    e.kind = .invalidInput ∧ e.stage = "resolve_images" := by
  unfold urlError at h
  cases hp : parse url with
  | none =>
      rw [hp] at h
      dsimp only at h
      injection h with he
      subst he
      exact ⟨rfl, rfl⟩
  | some parsed =>
      rw [hp] at h
      dsimp only at h
      by_cases hd : parsed.scheme = "http".data ∨ parsed.scheme = "https".data
      · rw [if_pos hd] at h
        cases hal : allowlist with
        | none =>
            rw [hal] at h
            cases hh : parsed.host <;> rw [hh] at h <;> exact Option.noConfusion h
        | some allowed =>
            rw [hal] at h
            cases hh : parsed.host with
            | none =>
                rw [hh] at h
                exact Option.noConfusion h
            | some host =>
                rw [hh] at h
                dsimp only at h
                by_cases hok : host_allowed host allowed = true
                · rw [if_pos hok] at h
                  exact Option.noConfusion h
                · rw [if_neg hok] at h
                  injection h with he
                  subst he
                  exact ⟨rfl, rfl⟩
      · rw [if_neg hd] at h
        injection h with he
        subst he
        exact ⟨rfl, rfl⟩

theorem checkUrls_none_iff (parse : RStr → Option UrlParts) (allowlist : Option (List RStr))
    (l : List RStr) :
    checkUrls parse allowlist l = none ↔ ∀ u ∈ l, urlError parse allowlist u = none := by
  induction l with
  | nil => simp [checkUrls]
  | cons url rest ih =>
      cases hu : urlError parse allowlist url with
      | none =>
          simp only [checkUrls, hu]
          rw [ih]
          constructor
          · intro h u hmem
            rcases List.mem_cons.mp hmem with hmem | hmem
            · rw [hmem]
              exact hu
            · exact h u hmem
          · intro h u hmem
            exact h u (List.mem_cons_of_mem _ hmem)
      | some e =>
          simp only [checkUrls, hu]
          constructor
          · intro h
            exact Option.noConfusion h
          · intro h
            have := h url (List.mem_cons_self url rest)
            rw [hu] at this
            exact Option.noConfusion this

theorem checkUrls_some_mem (parse : RStr → Option UrlParts) (allowlist : Option (List RStr))
    (l : List RStr) (e : PipelineError) (h : checkUrls parse allowlist l = some e) :
    ∃ u ∈ l, urlError parse allowlist u = some e := by
  induction l with
  | nil => exact Option.noConfusion h
  | cons url rest ih =>
      unfold checkUrls at h
      cases hu : urlError parse allowlist url with
      | none =>
          rw [hu] at h
          rcases ih h with ⟨u, hmem, hue⟩
          exact ⟨u, List.mem_cons_of_mem _ hmem, hue⟩
      | some e2 =>
          rw [hu] at h
          injection h with he
          subst he
          exact ⟨url, List.mem_cons_self url rest, hu⟩

/-- Claim C4: `MAX_IMAGES` defaults to 6; every `resolve_images` failure is
an `InvalidInput` error tagged `resolve_images`; and it fails exactly when
the resolved list (after splitting, trimming, dropping empties, optional
signing and deduplication) is empty, exceeds the limit, or contains an
entry that fails URL parsing, has a non-http(s) scheme, or — with an
allowlist configured — a host matching no allowlist entry exactly or as a
`.suffix`. -/
theorem claim_C4_resolve_images (parse : RStr → Option UrlParts) (maxImages : Nat)
    (allowlist : Option (List RStr)) (req : ListingRequestM) :
    max_images_allowed none = 6 ∧
    (∀ e, resolve_images parse maxImages allowlist req = .error e →
      e.kind = .invalidInput ∧ e.stage = "resolve_images") ∧
    ((∃ e, resolve_images parse maxImages allowlist req = .error e) ↔
      (resolvedImages req = [] ∨ maxImages < (resolvedImages req).length ∨
        ∃ url ∈ resolvedImages req, urlViolation parse allowlist url)) := by
  refine ⟨rfl, ?_, ?_⟩
  · intro e he
    unfold resolve_images at he
    by_cases h1 : maxImages < (resolvedImages req).length
    · rw [if_pos h1] at he
      injection he with he2
      subst he2
      exact ⟨rfl, rfl⟩
    · rw [if_neg h1] at he
      by_cases h2 : resolvedImages req = []
      · rw [if_pos h2] at he
        injection he with he2
        subst he2
        exact ⟨rfl, rfl⟩
      · rw [if_neg h2] at he
        cases hc : checkUrls parse allowlist (resolvedImages req) with
        | none =>
            rw [hc] at he
            exact Except.noConfusion he
        | some e2 =>
            rw [hc] at he
            injection he with he2
            subst he2
            rcases checkUrls_some_mem parse allowlist _ e2 hc with ⟨u, _, hue⟩
            exact urlError_invalid parse allowlist u e2 hue
  · unfold resolve_images
    by_cases h1 : maxImages < (resolvedImages req).length
    · rw [if_pos h1]
      constructor
      · intro _
        exact Or.inr (Or.inl h1)
      · intro _
        exact ⟨_, rfl⟩
    · rw [if_neg h1]
      by_cases h2 : resolvedImages req = []
      · rw [if_pos h2]
        constructor
        · intro _
          exact Or.inl h2
        · intro _
          exact ⟨_, rfl⟩
      · rw [if_neg h2]
        cases hc : checkUrls parse allowlist (resolvedImages req) with
        | none =>
            simp only
            constructor
            · intro ⟨e, he⟩
              exact Except.noConfusion he
            · intro h
              rcases h with h | h | ⟨url, hmem, hviol⟩
              · exact absurd h h2
              · exact absurd h h1
              · have := (checkUrls_none_iff parse allowlist _).mp hc url hmem
                exact absurd hviol ((urlError_none_iff parse allowlist url).mp this)
        | some e =>
            simp only
            constructor
            · intro _
              rcases checkUrls_some_mem parse allowlist _ e hc with ⟨u, hmem, hue⟩
              refine Or.inr (Or.inr ⟨u, hmem, ?_⟩)
              by_contra hnv
              have := (urlError_none_iff parse allowlist u).mpr hnv
              rw [this] at hue
              exact Option.noConfusion hue
            · intro _
              exact ⟨e, rfl⟩

/-- A tiny concrete URL parser standing in for `reqwest::Url::parse` in the
evaluation below. -/
def demoParse (url : RStr) : Option UrlParts :=
  if "https://example.com/".data.isPrefixOf url then
    some { scheme := "https".data, host := some "example.com".data }
  else if "ftp://".data.isPrefixOf url then
    some { scheme := "ftp".data, host := some "example.com".data }
  else none

/-- Concrete evaluations of the model: the sample request resolves, and a
non-http scheme is rejected with `InvalidInput`. -/
theorem resolve_images_examples :
    resolve_images demoParse 6 none sampleRequest =
      .ok ["https://example.com/a.jpg".data, "https://example.com/b.jpg".data] ∧
    resolve_images demoParse 6 none
      { sampleRequest with images_source := .single "ftp://example.com/a.jpg".data } =
      .error (PipelineError.invalid_input "resolve_images"
        "unsupported_url_scheme: ftp://example.com/a.jpg") := by
  constructor
  · rfl
  · rfl

/- ======= C1: pipeline orchestration (src/pipeline.rs 118-399) ========== -/

/-- `DemoCredentials` (src/pipeline.rs 730-734). -/
structure DemoCredentials where
  token : String
  expires_in : Nat
deriving DecidableEq, Repr

/-- `TaxonomyAspect` (src/pipeline.rs 723-728). -/
structure TaxonomyAspect where
  name : String
  required : Bool
  samples : List String
deriving DecidableEq, Repr

/-- `TaxonomySpec` (src/pipeline.rs 714-721). -/
structure TaxonomySpec where
  category_id : String
  tree_id : String
  aspects : List TaxonomyAspect
  raw : TaxonomyResponse
deriving DecidableEq, Repr

/-- `ConditionBundle` (src/pipeline.rs 736-740). -/
structure ConditionBundle where
  allowed : List String
  default_condition : String
deriving DecidableEq, Repr

/-- `ListingPolicies` (src/ebay/listing.rs). -/
structure ListingPolicies where
  fulfillment_policy_id : String
  payment_policy_id : String
  return_policy_id : String
deriving DecidableEq, Repr

/-- `PackageWeightAndSizePayload` (src/ebay/listing.rs), reduced to its
numeric content. -/
structure PackagePayload where
  weightValue : ℚ
  height : ℚ
  length : ℚ
  width : ℚ
deriving DecidableEq, Repr

/-- `ListingPlan` (src/pipeline.rs 742-757). -/
structure ListingPlan where
  sku : String
  title : RStr
  price : ℚ
  currency : RStr
  condition : String
  description : RStr
  marketplace : MarketplaceId
  merchant_location_key : String
  category_id : String
  media : List RStr
  policies : ListingPolicies
  aspects : List (RStr × List RStr)
  package : Option PackagePayload
deriving DecidableEq, Repr

/-- `InventoryReceipt` (src/pipeline.rs 759-766). -/
structure InventoryReceipt where
  sku : String
  location : String
  quantity : Nat
  package : String
  status : String
deriving DecidableEq, Repr

/-- `OfferResult` (src/pipeline.rs 768-773). -/
structure OfferResult where
  listing_id : String
  route : String
  preview_url : String
deriving DecidableEq, Repr

/-- `EbayRuntimeConfig` (src/pipeline.rs 1514-1520); the optional location
metadata only feeds the network path of `push_inventory`, which the run
environment captures, so it is not carried here. -/
structure EbayRuntimeConfig where
  merchant_location_key : String
  policies : ListingPolicies
  marketplace : MarketplaceId
deriving DecidableEq, Repr

/-- The effects of one `Pipeline::run` call.  Every stage call performs
network or LLM work (or synthesizes data after an async pause), so the
value or error each call site produces in this run is a field; `run`
itself (the orchestration under verification) decides which calls happen,
in which order, and how reports accumulate.  `previewUuid` is the
`Uuid::new_v4().simple()` drawn in the dry-run return. -/
structure RunEnv where
  preludeResult : Except PipelineError Unit
  resolveImagesR : Except PipelineError (List RStr)
  selectCategoryR : Except PipelineError CategorySelection
  fetchTaxonomyR : Except PipelineError TaxonomySpec
  acquireTokenR : Except PipelineError DemoCredentials
  prepareConditionsR : Except PipelineError ConditionBundle
  extractProductR : Except PipelineError HsufProduct
  ebayConfigR : Except PipelineError EbayRuntimeConfig
  buildListingR : Except PipelineError ListingPlan
  networkEnabled : Bool
  ebayTokenR : Except PipelineError String
  pushInventoryR : Except PipelineError InventoryReceipt
  publishOfferR : Except PipelineError OfferResult

/-- `Pipeline::capture_stage` (src/pipeline.rs 383-399): await the stage,
abort on error, otherwise push one report named after the stage.  Reports
are modelled by their names (claim C1 is about their names and order). -/
def captureStage {α : Type} (name : String) (r : Except PipelineError α)
    (stages : List String) : Except PipelineError (α × List String) :=
  match r with
  | .error e => .error e
  | .ok v => .ok (v, stages ++ [name])


/-- The `resolve_images` step of `run` (src/pipeline.rs 140-181): an
override short-circuits after validation (empty list and `MAX_IMAGES`
checks), synthesizing the stage report directly; otherwise the stage call
runs under `capture_stage`. -/
def resolveImagesStep (env : RunEnv) (maxImages : Nat) (request : ListingRequestM) :
    Except PipelineError (List RStr × List String) :=
  match request.overrides with
  | some ov =>
      match ov.resolved_images with
      | some imgs =>
          if imgs = [] then
            .error (PipelineError.invalid_input "resolve_images" "no images provided")
          else if maxImages < imgs.length then
            .error (PipelineError.invalid_input "resolve_images" "too_many_images")
          else .ok (imgs, ["resolve_images"])
      | none => captureStage "resolve_images" env.resolveImagesR []
  | none => captureStage "resolve_images" env.resolveImagesR []

/-- The `select_category` step of `run` (src/pipeline.rs 185-239): a
category override is wrapped into a `CategorySelection` and reported
through `capture_stage` (that branch cannot fail); otherwise the stage
call runs. -/
def selectCategoryStep (env : RunEnv) (request : ListingRequestM) (stages1 : List String) :
    Except PipelineError (CategorySelection × List String) :=
  match request.overrides with
  | some ov =>
      match ov.category with
      | some sel =>
          captureStage "select_category"
            (.ok { id := sel.id, tree_id := sel.tree_id, label := sel.label,
                   confidence := sel.confidence, rationale := sel.rationale }) stages1
      | none => captureStage "select_category" env.selectCategoryR stages1
  | none => captureStage "select_category" env.selectCategoryR stages1

/-- The `extract_product` step of `run` (src/pipeline.rs 263-303): a
product override is deserialized — failure is `InvalidInput
invalid_product_override` — otherwise the stage call runs. -/
def extractProductStep (env : RunEnv) (request : ListingRequestM) (stages5 : List String) :
    Except PipelineError (HsufProduct × List String) :=
  match request.overrides with
  | some ov =>
      match ov.product with
      | some parsed =>
          captureStage "extract_product"
            (match parsed with
             | some product => .ok product
             | none => .error (PipelineError.invalid_input "extract_product"
                 "invalid_product_override")) stages5
      | none => captureStage "extract_product" env.extractProductR stages5
  | none => captureStage "extract_product" env.extractProductR stages5

/-- `Pipeline::run` (src/pipeline.rs 118-381).  The supabase org-config
prelude (125-138) aborts only when the auth org id fails UUID parsing
(lookup failures are logged and swallowed); `resolve_ebay_config` (304)
and the eBay token fetch (334-338, only when `EBAY_ENABLE_NETWORK`) abort
without emitting a report; `dry_run` returns after `build_listing` with a
`PREVIEW-` listing id; otherwise the response carries the offer's listing
id. -/
def Pipeline.run (env : RunEnv) (maxImages : Nat) (previewUuid : String)
    (request : ListingRequestM) : Except PipelineError ListingResponseM :=
  match env.preludeResult with
  | .error e => .error e
  | .ok _ =>
    match resolveImagesStep env maxImages request with
    | .error e => .error e
    | .ok (_, stages1) =>
      match selectCategoryStep env request stages1 with
      | .error e => .error e
      | .ok (_, stages2) =>
        match captureStage "fetch_taxonomy" env.fetchTaxonomyR stages2 with
        | .error e => .error e
        | .ok (_, stages3) =>
          match captureStage "acquire_user_token" env.acquireTokenR stages3 with
          | .error e => .error e
          | .ok (_, stages4) =>
            match captureStage "prepare_conditions" env.prepareConditionsR stages4 with
            | .error e => .error e
            | .ok (_, stages5) =>
              match extractProductStep env request stages5 with
              | .error e => .error e
              | .ok (_, stages6) =>
                match env.ebayConfigR with
                | .error e => .error e
                | .ok _ =>
                  match captureStage "build_listing" env.buildListingR stages6 with
                  | .error e => .error e
                  | .ok (_, stages7) =>
                    if request.dry_run then
                      .ok { listing_id := "PREVIEW-" ++ previewUuid, stages := stages7 }
                    else
                      match (if env.networkEnabled then env.ebayTokenR.map some
                             else .ok none) with
                      | .error e => .error e
                      | .ok _ =>
                        match captureStage "push_inventory" env.pushInventoryR stages7 with
                        | .error e => .error e
                        | .ok (_, stages8) =>
                          match captureStage "publish_offer" env.publishOfferR stages8 with
                          | .error e => .error e
                          | .ok (offer, stages9) =>
                            .ok { listing_id := offer.listing_id, stages := stages9 }

theorem captureStage_cases {α : Type} (name : String) (r : Except PipelineError α)
    (stages : List String) :
    (∃ e, captureStage name r stages = .error e) ∨
    (∃ v, captureStage name r stages = .ok (v, stages ++ [name])) := by
  cases r with
  | error e => exact Or.inl ⟨e, rfl⟩
  | ok v => exact Or.inr ⟨v, rfl⟩

theorem resolveImagesStep_cases (env : RunEnv) (maxImages : Nat) (request : ListingRequestM) :
    (∃ e, resolveImagesStep env maxImages request = .error e) ∨
    (∃ imgs, resolveImagesStep env maxImages request = .ok (imgs, ["resolve_images"])) := by
  unfold resolveImagesStep
  cases request.overrides with
  | none =>
      dsimp only
      simpa using captureStage_cases "resolve_images" env.resolveImagesR []
  | some ov =>
      dsimp only
      cases ov.resolved_images with
      | none =>
          dsimp only
          simpa using captureStage_cases "resolve_images" env.resolveImagesR []
      | some imgs =>
          dsimp only
          by_cases h1 : imgs = []
          · rw [if_pos h1]
            exact Or.inl ⟨_, rfl⟩
          · rw [if_neg h1]
            by_cases h2 : maxImages < imgs.length
            · rw [if_pos h2]
              exact Or.inl ⟨_, rfl⟩
            · rw [if_neg h2]
              exact Or.inr ⟨imgs, rfl⟩

theorem selectCategoryStep_cases (env : RunEnv) (request : ListingRequestM)
    (stages1 : List String) :
    (∃ e, selectCategoryStep env request stages1 = .error e) ∨
    (∃ sel, selectCategoryStep env request stages1 = .ok (sel, stages1 ++ ["select_category"])) := by
  unfold selectCategoryStep
  cases request.overrides with
  | none =>
      dsimp only
      exact captureStage_cases "select_category" env.selectCategoryR stages1
  | some ov =>
      dsimp only
      cases ov.category with
      | none =>
          dsimp only
          exact captureStage_cases "select_category" env.selectCategoryR stages1
      | some sel =>
          dsimp only
          exact Or.inr ⟨_, rfl⟩

theorem extractProductStep_cases (env : RunEnv) (request : ListingRequestM)
    (stages5 : List String) :
    (∃ e, extractProductStep env request stages5 = .error e) ∨
    (∃ product, extractProductStep env request stages5 =
      .ok (product, stages5 ++ ["extract_product"])) := by
  unfold extractProductStep
  cases request.overrides with
  | none =>
      dsimp only
      exact captureStage_cases "extract_product" env.extractProductR stages5
  | some ov =>
      dsimp only
      cases ov.product with
      | none =>
          dsimp only
          exact captureStage_cases "extract_product" env.extractProductR stages5
      | some parsed =>
          dsimp only
          cases parsed with
          | none => exact Or.inl ⟨_, rfl⟩
          | some product => exact Or.inr ⟨product, rfl⟩

/-- The nine stage names of a full run, in execution order. -/
def fullStageNames : List String :=
  ["resolve_images", "select_category", "fetch_taxonomy", "acquire_user_token",
   "prepare_conditions", "extract_product", "build_listing", "push_inventory",
   "publish_offer"]

/-- The seven stage names of a dry run. -/
def dryStageNames : List String :=
  ["resolve_images", "select_category", "fetch_taxonomy", "acquire_user_token",
   "prepare_conditions", "extract_product", "build_listing"]

theorem run_ok_stages (env : RunEnv) (maxImages : Nat) (previewUuid : String)
    (request : ListingRequestM) (resp : ListingResponseM)
    (hrun : Pipeline.run env maxImages previewUuid request = .ok resp) :
    (request.dry_run = true ∧ resp.stages = dryStageNames ∧
      resp.listing_id = "PREVIEW-" ++ previewUuid) ∨
    (request.dry_run = false ∧ resp.stages = fullStageNames) := by
  unfold Pipeline.run at hrun
  cases hpre : env.preludeResult with
  | error e => rw [hpre] at hrun; exact Except.noConfusion hrun
  | ok u =>
  rw [hpre] at hrun
  dsimp only at hrun
  rcases resolveImagesStep_cases env maxImages request with ⟨e, hstep⟩ | ⟨imgs, hstep⟩
  · rw [hstep] at hrun
    exact Except.noConfusion hrun
  · rw [hstep] at hrun
    dsimp only at hrun
    rcases selectCategoryStep_cases env request ["resolve_images"] with ⟨e, hsel⟩ | ⟨sel, hsel⟩
    · rw [hsel] at hrun
      exact Except.noConfusion hrun
    · rw [hsel] at hrun
      dsimp only at hrun
      rcases captureStage_cases "fetch_taxonomy" env.fetchTaxonomyR
          (["resolve_images"] ++ ["select_category"]) with ⟨e, hft⟩ | ⟨tax, hft⟩
      · rw [hft] at hrun
        exact Except.noConfusion hrun
      · rw [hft] at hrun
        dsimp only at hrun
        rcases captureStage_cases "acquire_user_token" env.acquireTokenR
            (["resolve_images"] ++ ["select_category"] ++ ["fetch_taxonomy"])
          with ⟨e, hat⟩ | ⟨tok, hat⟩
        · rw [hat] at hrun
          exact Except.noConfusion hrun
        · rw [hat] at hrun
          dsimp only at hrun
          rcases captureStage_cases "prepare_conditions" env.prepareConditionsR
              (["resolve_images"] ++ ["select_category"] ++ ["fetch_taxonomy"] ++
                ["acquire_user_token"]) with ⟨e, hpc⟩ | ⟨conds, hpc⟩
          · rw [hpc] at hrun
            exact Except.noConfusion hrun
          · rw [hpc] at hrun
            dsimp only at hrun
            rcases extractProductStep_cases env request
                (["resolve_images"] ++ ["select_category"] ++ ["fetch_taxonomy"] ++
                  ["acquire_user_token"] ++ ["prepare_conditions"])
              with ⟨e, hep⟩ | ⟨product, hep⟩
            · rw [hep] at hrun
              exact Except.noConfusion hrun
            · rw [hep] at hrun
              dsimp only at hrun
              cases hec : env.ebayConfigR with
              | error e =>
                  rw [hec] at hrun
                  exact Except.noConfusion hrun
              | ok cfg =>
              rw [hec] at hrun
              dsimp only at hrun
              rcases captureStage_cases "build_listing" env.buildListingR
                  (["resolve_images"] ++ ["select_category"] ++ ["fetch_taxonomy"] ++
                    ["acquire_user_token"] ++ ["prepare_conditions"] ++ ["extract_product"])
                with ⟨e, hbl⟩ | ⟨listing, hbl⟩
              · rw [hbl] at hrun
                exact Except.noConfusion hrun
              · rw [hbl] at hrun
                dsimp only at hrun
                by_cases hdry : request.dry_run
                · rw [if_pos hdry] at hrun
                  injection hrun with hresp
                  subst hresp
                  left
                  refine ⟨hdry, by simp [dryStageNames], rfl⟩
                · rw [if_neg hdry] at hrun
                  cases htok : (if env.networkEnabled then env.ebayTokenR.map some
                      else (.ok none : Except PipelineError (Option String))) with
                  | error e =>
                      rw [htok] at hrun
                      exact Except.noConfusion hrun
                  | ok tok2 =>
                  rw [htok] at hrun
                  dsimp only at hrun
                  rcases captureStage_cases "push_inventory" env.pushInventoryR
                      (["resolve_images"] ++ ["select_category"] ++ ["fetch_taxonomy"] ++
                        ["acquire_user_token"] ++ ["prepare_conditions"] ++
                        ["extract_product"] ++ ["build_listing"]) with ⟨e, hpi⟩ | ⟨rcpt, hpi⟩
                  · rw [hpi] at hrun
                    exact Except.noConfusion hrun
                  · rw [hpi] at hrun
                    dsimp only at hrun
                    rcases captureStage_cases "publish_offer" env.publishOfferR
                        (["resolve_images"] ++ ["select_category"] ++ ["fetch_taxonomy"] ++
                          ["acquire_user_token"] ++ ["prepare_conditions"] ++
                          ["extract_product"] ++ ["build_listing"] ++ ["push_inventory"])
                      with ⟨e, hpo⟩ | ⟨offer, hpo⟩
                    · rw [hpo] at hrun
                      exact Except.noConfusion hrun
                    · rw [hpo] at hrun
                      dsimp only at hrun
                      injection hrun with hresp
                      subst hresp
                      right
                      refine ⟨Bool.eq_false_iff.mpr hdry, by simp [fullStageNames]⟩

/-- Claim C1: a request without overrides that completes a full (non-dry)
run emits exactly the nine stage reports `resolve_images, select_category,
fetch_taxonomy, acquire_user_token, prepare_conditions, extract_product,
build_listing, push_inventory, publish_offer` in that order, none twice;
and any request with `dry_run = true` that completes emits exactly the
first seven of them and returns a listing id starting with `PREVIEW-`.
(The nine-stage sequence in fact holds for overridden requests as well —
override short-circuits emit reports under the same names.) -/
theorem claim_C1_stage_sequence (env : RunEnv) (maxImages : Nat) (previewUuid : String)
    (request : ListingRequestM) :
    (request.overrides = none → request.dry_run = false → ∀ resp,
      Pipeline.run env maxImages previewUuid request = .ok resp →
      resp.stages = fullStageNames ∧ resp.stages.Nodup) ∧
    (request.dry_run = true → ∀ resp,
      Pipeline.run env maxImages previewUuid request = .ok resp →
      resp.stages = dryStageNames ∧ (∃ u, resp.listing_id = "PREVIEW-" ++ u) ∧
        resp.stages.Nodup) := by
  constructor
  · intro _ hdry resp hrun
    rcases run_ok_stages env maxImages previewUuid request resp hrun with
      ⟨ht, _, _⟩ | ⟨_, hst⟩
    · rw [hdry] at ht
      exact Bool.noConfusion ht
    · refine ⟨hst, ?_⟩
      rw [hst]
      decide
  · intro hdry resp hrun
    rcases run_ok_stages env maxImages previewUuid request resp hrun with
      ⟨_, hst, hid⟩ | ⟨hf, _⟩
    · refine ⟨hst, ⟨previewUuid, hid⟩, ?_⟩
      rw [hst]
      decide
    · rw [hdry] at hf
      exact Bool.noConfusion hf

/-- A concrete successful run environment for the witness. -/
def c1Env : RunEnv :=
  { preludeResult := .ok ()
    resolveImagesR := .ok ["https://example.com/a.jpg".data, "https://example.com/b.jpg".data]
    selectCategoryR := .ok
      { id := "31387", tree_id := "0", label := "Consumer Electronics",
        confidence := 8/10, rationale := "demo" }
    fetchTaxonomyR := .ok
      { category_id := "31387", tree_id := "0", aspects := [], raw := { aspects := [] } }
    acquireTokenR := .ok { token := "demo_token", expires_in := 3600 }
    prepareConditionsR := .ok
      { allowed := ["NEW", "USED_LIKE_NEW", "USED_GOOD", "USED"], default_condition := "NEW" }
    extractProductR := .ok c9Product
    ebayConfigR := .ok
      { merchant_location_key := "loc-1"
        policies := { fulfillment_policy_id := "fulfill-123",
                      payment_policy_id := "payment-123", return_policy_id := "return-123" }
        marketplace := .ebayUs }
    buildListingR := .ok
      { sku := "test-sku-001", title := "Demo".data, price := 4999/100,
        currency := "USD".data, condition := "NEW", description := "Demo listing".data,
        marketplace := .ebayUs, merchant_location_key := "loc-1", category_id := "31387",
        media := ["https://example.com/a.jpg".data], policies :=
          { fulfillment_policy_id := "fulfill-123", payment_policy_id := "payment-123",
            return_policy_id := "return-123" },
        aspects := [], package := none }
    networkEnabled := false
    ebayTokenR := .ok ""
    pushInventoryR := .ok
      { sku := "test-sku-001", location := "loc-1", quantity := 1,
        package := "DEFAULT_SHOES", status := "UPSERTED" }
    publishOfferR := .ok
      { listing_id := "HER-5a1b", route := "https://api.ebay.com/sell/offers",
        preview_url := "https://sandbox.ebay.com/itm/HER-5a1b" } }

/-- Witness for C1: the sample request through `c1Env` completes with the
nine stages; the same request with `dry_run := true` completes with the
seven stages and a `PREVIEW-` listing id. -/
theorem claim_C1_witness :
    (∃ resp, Pipeline.run c1Env 6 "0123456789ab" sampleRequest = .ok resp ∧
      resp.stages = fullStageNames ∧ resp.stages.Nodup) ∧
    (∃ resp,
      Pipeline.run c1Env 6 "0123456789ab" { sampleRequest with dry_run := true } = .ok resp ∧
      resp.stages = dryStageNames ∧ (∃ u, resp.listing_id = "PREVIEW-" ++ u) ∧
        resp.stages.Nodup) := by
  constructor
  · have hrun : Pipeline.run c1Env 6 "0123456789ab" sampleRequest =
        .ok { listing_id := "HER-5a1b", stages := fullStageNames } := rfl
    exact ⟨_, hrun,
      (claim_C1_stage_sequence c1Env 6 "0123456789ab" sampleRequest).1 rfl rfl _ hrun⟩
  · have hrun : Pipeline.run c1Env 6 "0123456789ab" { sampleRequest with dry_run := true } =
        .ok { listing_id := "PREVIEW-0123456789ab", stages := dryStageNames } := rfl
    exact ⟨_, hrun,
      (claim_C1_stage_sequence c1Env 6 "0123456789ab"
        { sampleRequest with dry_run := true }).2 rfl _ hrun⟩

/- ======= C2: offer reconciliation (src/pipeline.rs 1223-1278, 1448-1490) -/

/-- `OfferSummary` (src/ebay/offers.rs 141-145). -/
structure OfferSummaryM where
  offerId : Option String
  marketplaceId : Option String
deriving DecidableEq, Repr

/-- The outcome of `offers::create_offer` (src/ebay/offers.rs 82-113): a
new offer id, HTTP 409 (`EntityExists`), or another request error. -/
inductive CreateOfferOutcome where
  | ok (offerId : String)
  | entityExists
  | requestError (msg : String)
deriving DecidableEq, Repr

/-- The marketplace calls one `publish_offer` stage makes, as a trace: the
create outcome, the offer lookup by SKU, the first update, the withdraw,
the retried update, the publish, and the `Uuid::new_v4().simple()` drawn
for a fallback listing id.  Fields for calls a given path never makes are
simply unread. -/
structure OfferEnv where
  createResult : CreateOfferOutcome
  lookupResult : Except String (List OfferSummaryM)
  updateFirst : Except String Unit
  withdrawResult : Except String Unit
  updateSecond : Except String Unit
  publishResult : Except String String
  uuid : String

/-- `fallback_listing_id` (src/pipeline.rs 1502-1504). -/
def fallback_listing_id (uuid : String) : String := "HER-" ++ uuid

/-- The candidate choice of `reconcile_existing_offer` (src/pipeline.rs
1456-1466): the first offer whose `marketplaceId` equals the request's,
else the first offer, then its `offerId`; `none` when that offer has no
id (or there are no offers). -/
def pickCandidate (offers : List OfferSummaryM) (marketplaceId : String) : Option String :=
  (match offers.find? (fun (o : OfferSummaryM) => decide (o.marketplaceId = some marketplaceId)) with
   | some o => some o
   | none => offers.head?).bind
    (fun (o : OfferSummaryM) => o.offerId)

/-- `reconcile_existing_offer` (src/pipeline.rs 1448-1490): look up the
offers for the SKU, pick a candidate, update it (withdraw and update once
more on failure), publish it, and substitute `HER-<uuid>` for an empty
published listing id. -/
def reconcile_existing_offer (env : OfferEnv) (marketplaceId : String) :
    Except PipelineError (String × Option String) :=
  match env.lookupResult with
  | .error err => .error (PipelineError.internal "publish_offer" err)
  | .ok offers =>
      match pickCandidate offers marketplaceId with
      | none =>
          .error (PipelineError.internal "publish_offer"
            "no existing offer found for reconciliation")
      | some candidate =>
          let afterUpdate : Except PipelineError Unit :=
            match env.updateFirst with
            | .ok _ => .ok ()
            | .error _ =>
                match env.withdrawResult with
                | .error werr => .error (PipelineError.internal "publish_offer" werr)
                | .ok _ =>
                    match env.updateSecond with
                    | .error uerr => .error (PipelineError.internal "publish_offer" uerr)
                    | .ok _ => .ok ()
          match afterUpdate with
          | .error e => .error e
          | .ok _ =>
              match env.publishResult with
              | .error perr => .error (PipelineError.internal "publish_offer" perr)
              | .ok listingId =>
                  .ok (if listingId = "" then fallback_listing_id env.uuid else listingId,
                    some candidate)

/-- The `(listing_id, offer_id)` pair computed by `stages::publish_offer`
(src/pipeline.rs 1236-1256): without a marketplace token, the fallback id
with no network effect; otherwise create, then publish (with the empty-id
fallback), with `EntityExists` dispatching to the reconciliation and other
errors becoming `Internal`. -/
def publish_offer_ids (env : OfferEnv) (marketplaceId : String)
    (accessToken : Option String) : Except PipelineError (String × Option String) :=
  match accessToken with
  | none => .ok (fallback_listing_id env.uuid, none)
  | some _ =>
      match env.createResult with
      | .ok newOfferId =>
          match env.publishResult with
          | .error err => .error (PipelineError.internal "publish_offer" err)
          | .ok published =>
              .ok (if published = "" then fallback_listing_id env.uuid else published,
                some newOfferId)
      | .entityExists => reconcile_existing_offer env marketplaceId
      | .requestError msg => .error (PipelineError.internal "publish_offer" msg)

/-- After a successful update chain, reconciliation publishes the
candidate: a publish error is `Internal`, an empty published id becomes
`HER-<uuid>`, and the candidate is reported as the offer id. -/
def reconcilePublishes (env : OfferEnv) (marketplaceId candidate : String) : Prop :=
  (∀ perr, env.publishResult = .error perr →
    reconcile_existing_offer env marketplaceId =
      .error (PipelineError.internal "publish_offer" perr)) ∧
  (∀ lid, env.publishResult = .ok lid →
    reconcile_existing_offer env marketplaceId =
      .ok (if lid = "" then fallback_listing_id env.uuid else lid, some candidate))

/-- Claim C2: when `create_offer` reports `EntityExists`, `publish_offer`
runs the reconciliation; the reconciliation fetches the offers for the
SKU (lookup failure is `Internal`), picks the first offer whose
`marketplaceId` matches the request or else the first offer, fails with
`Internal` when no usable candidate exists, otherwise updates the
candidate — on update failure withdrawing and updating exactly once more,
each failure `Internal` — publishes it, and returns its listing id with
`HER-<uuid>` substituted for an empty id. -/
theorem claim_C2_reconciliation (env : OfferEnv) (marketplaceId accessToken : String)
    (hc : env.createResult = .entityExists) :
    publish_offer_ids env marketplaceId (some accessToken) =
      reconcile_existing_offer env marketplaceId ∧
    (∀ msg, env.lookupResult = .error msg →
      reconcile_existing_offer env marketplaceId =
        .error (PipelineError.internal "publish_offer" msg)) ∧
    (∀ offers o, offers.find? (fun o2 => decide (o2.marketplaceId = some marketplaceId)) =
        some o → pickCandidate offers marketplaceId = o.offerId) ∧
    (∀ offers, offers.find? (fun o2 => decide (o2.marketplaceId = some marketplaceId)) =
        none → pickCandidate offers marketplaceId = offers.head?.bind (fun o => o.offerId)) ∧
    (∀ offers, env.lookupResult = .ok offers → pickCandidate offers marketplaceId = none →
      reconcile_existing_offer env marketplaceId =
        .error (PipelineError.internal "publish_offer"
          "no existing offer found for reconciliation")) ∧
    (∀ offers candidate, env.lookupResult = .ok offers →
      pickCandidate offers marketplaceId = some candidate →
      ((∀ u, env.updateFirst = .ok u → reconcilePublishes env marketplaceId candidate) ∧
       (∀ e1 werr, env.updateFirst = .error e1 → env.withdrawResult = .error werr →
         reconcile_existing_offer env marketplaceId =
           .error (PipelineError.internal "publish_offer" werr)) ∧
       (∀ e1 u uerr, env.updateFirst = .error e1 → env.withdrawResult = .ok u →
         env.updateSecond = .error uerr →
         reconcile_existing_offer env marketplaceId =
           .error (PipelineError.internal "publish_offer" uerr)) ∧
       (∀ e1 u u2, env.updateFirst = .error e1 → env.withdrawResult = .ok u →
         env.updateSecond = .ok u2 → reconcilePublishes env marketplaceId candidate))) := by
  refine ⟨?_, ?_, ?_, ?_, ?_, ?_⟩
  · simp [publish_offer_ids, hc]
  · intro msg hmsg
    simp [reconcile_existing_offer, hmsg]
  · intro offers o hfind
    simp [pickCandidate, hfind]
  · intro offers hfind
    simp [pickCandidate, hfind]
  · intro offers hlook hpick
    simp [reconcile_existing_offer, hlook, hpick]
  · intro offers candidate hlook hpick
    refine ⟨?_, ?_, ?_, ?_⟩
    · intro u hupd
      constructor
      · intro perr hperr
        simp [reconcile_existing_offer, hlook, hpick, hupd, hperr]
      · intro lid hlid
        simp [reconcile_existing_offer, hlook, hpick, hupd, hlid]
    · intro e1 werr hupd hwith
      simp [reconcile_existing_offer, hlook, hpick, hupd, hwith]
    · intro e1 u uerr hupd hwith hupd2
      simp [reconcile_existing_offer, hlook, hpick, hupd, hwith, hupd2]
    · intro e1 u u2 hupd hwith hupd2
      constructor
      · intro perr hperr
        simp [reconcile_existing_offer, hlook, hpick, hupd, hwith, hupd2, hperr]
      · intro lid hlid
        simp [reconcile_existing_offer, hlook, hpick, hupd, hwith, hupd2, hlid]

/-- Scenario F of the specification: create reports 409, the SKU lookup
returns offer `O1` on the request's marketplace, the update succeeds and
the publish returns `L1`. -/
def c2Env : OfferEnv :=
  { createResult := .entityExists
    lookupResult := .ok [{ offerId := some "O1", marketplaceId := some "EBAY_US" }]
    updateFirst := .ok ()
    withdrawResult := .ok ()
    updateSecond := .ok ()
    publishResult := .ok "L1"
    uuid := "5a1bdeadbeef" }

/-- Witness for C2 on scenario F: the 409 dispatches to reconciliation,
which converges to listing id `L1` and offer id `O1`. -/
theorem claim_C2_witness :
    c2Env.createResult = CreateOfferOutcome.entityExists ∧
    publish_offer_ids c2Env "EBAY_US" (some "token") =
      reconcile_existing_offer c2Env "EBAY_US" ∧
    reconcile_existing_offer c2Env "EBAY_US" = .ok ("L1", some "O1") := by
  have h := claim_C2_reconciliation c2Env "EBAY_US" "token" rfl
  refine ⟨rfl, h.1, ?_⟩
  have hpick : pickCandidate [{ offerId := some "O1", marketplaceId := some "EBAY_US" }]
      "EBAY_US" = some "O1" := by decide
  have hpub := ((h.2.2.2.2.2 [{ offerId := some "O1", marketplaceId := some "EBAY_US" }]
    "O1" rfl hpick).1 () rfl).2 "L1" rfl
  rw [if_neg (by decide : ¬("L1" : String) = "")] at hpub
  exact hpub

/- ======= C10: idempotency cache (src/main.rs 243-267, src/idempotency.rs) -/

/-- `redis_get` (src/idempotency.rs 4-11): a failed connection yields
`None`; otherwise the stored payload under the key is deserialized
(deserialization failure also yields `None`, folded into `dec`).  The
stored payload type is a parameter `σ` (`String` of JSON in the binary)
together with the serde encode and decode functions. -/
def redis_get (σ : Type) (connected : Bool) (kv : List (RStr × σ))
    (dec : σ → Option ListingResponseM) (key : RStr) : Option ListingResponseM :=
  if connected then (assocLookup kv key).bind dec else none

/-- `redis_set` (src/idempotency.rs 13-24): on a live connection, store
the serialized response under the key with `SETEX ttlSecs`; failures are
ignored.  TTL expiry is wall-clock behaviour outside the model. -/
def redis_set (σ : Type) (connected : Bool) (kv : List (RStr × σ))
    (enc : ListingResponseM → σ) (key : RStr) (value : ListingResponseM)
    (ttlSecs : Nat) : List (RStr × σ) :=
  if connected then assocUpsert key (enc value) kv else kv

/-- The caches `create_listing` can touch: the remote KV and the
in-process map (src/main.rs 62, 128). -/
structure IdemState (σ : Type) where
  kv : List (RStr × σ)
  mem : List (RStr × ListingResponseM)

/-- The idempotency path of the `create_listing` handler (src/main.rs
243-267): a non-empty trimmed `Idempotency-Key` selects the remote KV when
one is configured (read; on miss run the pipeline and store) and the
in-memory map otherwise; without a usable key the pipeline simply runs.
The pipeline invocation this request WOULD perform is passed as
`pipelineResult`; a cache hit returns the stored response without
consulting it. -/
def create_listing_idem (σ : Type) (redisConfigured connected : Bool)
    (enc : ListingResponseM → σ) (dec : σ → Option ListingResponseM) (ttlSecs : Nat)
    (st : IdemState σ) (idemKeyHeader : Option RStr)
    (pipelineResult : Except PipelineError ListingResponseM) :
    Except PipelineError ListingResponseM × IdemState σ :=
  match (idemKeyHeader.map trimChars).filter (fun s => decide (s ≠ [])) with
  | none => (pipelineResult, st)
  | some key =>
      if redisConfigured then
        match redis_get σ connected st.kv dec key with
        | some existing => (.ok existing, st)
        | none =>
            match pipelineResult with
            | .error e => (.error e, st)
            | .ok resp =>
                (.ok resp, { st with kv := redis_set σ connected st.kv enc key resp ttlSecs })
      else
        match assocLookup st.mem key with
        | some existing => (.ok existing, st)
        | none =>
            match pipelineResult with
            | .error e => (.error e, st)
            | .ok resp => (.ok resp, { st with mem := assocUpsert key resp st.mem })

/-- Claim C10: two POSTs carrying the same non-empty `Idempotency-Key`
where the first completes successfully return the same `ListingResponse`:
the first answers `.ok v` (the fresh result or an earlier cached one), and
the second replays exactly that `v` — whatever its own pipeline outcome
would have been — leaving the caches unchanged.  Both responses are
serialized by the same serde encoder, so equal values mean byte-identical
bodies.  Hypotheses: the trimmed key is non-empty; when the remote KV is
configured it is reachable; and decode inverts encode (serde round
trip). -/
theorem claim_C10_idempotent_replay (σ : Type) (redisConfigured connected : Bool)
    (enc : ListingResponseM → σ) (dec : σ → Option ListingResponseM) (ttlSecs : Nat)
    (st0 : IdemState σ) (header : Option RStr) (key : RStr) (r1 : ListingResponseM)
    (p2 : Except PipelineError ListingResponseM)
    (hkey : (header.map trimChars).filter (fun s => decide (s ≠ [])) = some key)
    (hconn : redisConfigured = true → connected = true)
    (hrt : ∀ r, dec (enc r) = some r) :
    ∃ v st1,
      create_listing_idem σ redisConfigured connected enc dec ttlSecs st0 header (.ok r1) =
        (.ok v, st1) ∧
      create_listing_idem σ redisConfigured connected enc dec ttlSecs st1 header p2 =
        (.ok v, st1) := by
  simp only [ne_eq, decide_not] at hkey
  cases hcfg : redisConfigured with
  | true =>
      have hc : connected = true := hconn hcfg
      cases hget : redis_get σ connected st0.kv dec key with
      | some existing =>
          refine ⟨existing, st0, ?_, ?_⟩
          · simp [create_listing_idem, hkey, hcfg, hget]
          · simp [create_listing_idem, hkey, hcfg, hget]
      | none =>
          refine ⟨r1, { st0 with kv := redis_set σ connected st0.kv enc key r1 ttlSecs },
            ?_, ?_⟩
          · simp [create_listing_idem, hkey, hcfg, hget]
          · have hget2 : redis_get σ connected
                (redis_set σ connected st0.kv enc key r1 ttlSecs) dec key = some r1 := by
              simp [redis_get, redis_set, hc, assocLookup_assocUpsert, hrt]
            simp [create_listing_idem, hkey, hcfg, hget2]
  | false =>
      cases hget : assocLookup st0.mem key with
      | some existing =>
          refine ⟨existing, st0, ?_, ?_⟩
          · simp [create_listing_idem, hkey, hcfg, hget]
          · simp [create_listing_idem, hkey, hcfg, hget]
      | none =>
          refine ⟨r1, { st0 with mem := assocUpsert key r1 st0.mem }, ?_, ?_⟩
          · simp [create_listing_idem, hkey, hcfg, hget]
          · simp [create_listing_idem, hkey, hcfg, assocLookup_assocUpsert]

/-- Witness for C10 in both configurations, with the identity serializer
(`σ := ListingResponseM`) standing in for serde JSON round-tripping and a
key that needs trimming. -/
theorem claim_C10_witness :
    (∃ v st1,
      create_listing_idem ListingResponseM true true (fun r => r) some 3600
          { kv := [], mem := [] } (some " idem-1 ".data)
          (.ok { listing_id := "HER-1", stages := ["resolve_images"] }) = (.ok v, st1) ∧
      create_listing_idem ListingResponseM true true (fun r => r) some 3600
          st1 (some " idem-1 ".data)
          (.error (PipelineError.internal "publish_offer" "boom")) = (.ok v, st1)) ∧
    (∃ v st1,
      create_listing_idem ListingResponseM false false (fun r => r) some 3600
          { kv := [], mem := [] } (some " idem-1 ".data)
          (.ok { listing_id := "HER-1", stages := ["resolve_images"] }) = (.ok v, st1) ∧
      create_listing_idem ListingResponseM false false (fun r => r) some 3600
          st1 (some " idem-1 ".data)
          (.error (PipelineError.internal "publish_offer" "boom")) = (.ok v, st1)) := by
  constructor
  · exact claim_C10_idempotent_replay ListingResponseM true true (fun r => r) some 3600
      { kv := [], mem := [] } (some " idem-1 ".data) "idem-1".data
      { listing_id := "HER-1", stages := ["resolve_images"] } _
      (by decide) (fun _ => rfl) (fun r => rfl)
  · exact claim_C10_idempotent_replay ListingResponseM false false (fun r => r) some 3600
      { kv := [], mem := [] } (some " idem-1 ".data) "idem-1".data
      { listing_id := "HER-1", stages := ["resolve_images"] } _
      (by decide) (fun h => Bool.noConfusion h) (fun r => rfl)
